import Mathlib

/-!
Verification of the session-driven dialogue engine of the `max-provider`
bot backend.

The development shallowly embeds the TypeScript sources:

* `src/utils/session/session.service.ts` (`SessionService`): the keyed
  in-memory session table with per-key expiry timers and the permission
  tables, modelled as an explicit state (`SvcState`) holding an
  association list of sessions (the JS `Map`), the set of pending
  timers, a timer-id allocator and a clock.
* `src/bot/middleware/dialog-blocker.middleware.ts`
  (`DialogBlockerMiddleware.use`): the command/callback gate.
* `src/auth/auth.service/session.manager.service.ts`
  (`SessionManagerService`): the authentication session store, modelled
  with a functional map (a JS `Map` keyed by chat id).
* `src/auth/auth.service/steps/code-step.handler.ts`
  (`CodeStepHandler.handle`): SMS-code verification.
* `src/auth/auth.service/auth.service.ts` (`ResendCodeHandler`) and
  `src/auth/auth.service/utils/sms-sender.util.ts` (`SmsSenderUtil`).
* `src/auth/auth.service/handlers/message.handler.ts`
  (`MessageHandler.handleMessage`): the dialogue orchestrator.
* `src/bot/delivery/problem-order-courier-reply/courier-dialog.service.ts`
  (`CourierDialogService`): the problem-order courier reply flow.

Handlers are translated as pure functions from explicit state to state
plus a list of observable effects (replies, SMS sends, database writes,
log lines).  Asynchronous calls to collaborators (SMS provider, object
storage) are parameters of the corresponding definitions.
-/

set_option maxRecDepth 16000

namespace MaxProvider

/-! ## Association-list model of a JS `Map`

`mapGet`/`mapSet`/`mapDel` mirror `Map.get`, `Map.set` (update in place
when the key is present, append otherwise) and `Map.delete`. -/

def mapGet {α : Type} (k : Nat) : List (Nat × α) → Option α
  | [] => none
  | (k₁, v) :: rest => if k₁ = k then some v else mapGet k rest

def mapSet {α : Type} (k : Nat) (v : α) : List (Nat × α) → List (Nat × α)
  | [] => [(k, v)]
  | (k₁, v₁) :: rest => if k₁ = k then (k, v) :: rest else (k₁, v₁) :: mapSet k v rest

def mapDel {α : Type} (k : Nat) : List (Nat × α) → List (Nat × α)
  | [] => []
  | (k₁, v₁) :: rest => if k₁ = k then rest else (k₁, v₁) :: mapDel k rest

/-- Number of entries stored under key `k` (a JS `Map` always has 0 or 1). -/
def countKey {α : Type} (k : Nat) (l : List (Nat × α)) : Nat :=
  (l.filter (fun e => e.1 = k)).length

/-! ## `SessionService` (`src/utils/session/session.service.ts`)

Sessions of the dialogue store (`SessionType` in
`src/utils/session/type.ts`).  The `timer` field holds the JS timer
handle; here it is the numeric id of the pending timeout. -/

structure SessionType where
  state : String
  orderId : Option String
  allowedCommands : List String
  allowedCallbacks : List String
  timer : Nat
  stepDescription : Option String
deriving Repr, DecidableEq

/-- A pending `setTimeout` callback: firing deletes `key` at `fireAt`. -/
structure TimerRec where
  id : Nat
  key : Nat
  fireAt : Int
deriving Repr, DecidableEq

/-- State of one `SessionService` instance: the `sessions` map, the set of
pending timers of the JS event loop, a fresh-id source for `setTimeout`,
and the current clock (ms). -/
structure SvcState where
  sessions : List (Nat × SessionType)
  timers : List TimerRec
  nextTimerId : Nat
  now : Int
deriving Repr, DecidableEq

/-- `DIALOG_TIMEOUT = 30 * 60 * 1000`. -/
def DIALOG_TIMEOUT : Int := 30 * 60 * 1000

/-- `Partial<SessionType>` as passed to `create`/`update`; `none` means
the field is absent from the partial object. -/
structure SessionPatch where
  state : Option String := none
  orderId : Option String := none
  allowedCommands : Option (List String) := none
  allowedCallbacks : Option (List String) := none
  stepDescription : Option String := none
deriving Repr

/-- JS `x || dflt` for an optional string (both `undefined` and the empty
string are falsy). -/
def jsOrString (v : Option String) (dflt : String) : String :=
  match v with
  | some s => if s = "" then dflt else s
  | none => dflt

structure StatePermissions where
  allowedCommands : List String
  allowedCallbacks : List String
deriving Repr, DecidableEq

/-- `SessionService.getPermissionsByState`: the static permission table,
with the fallback for states that are not listed. -/
def getPermissionsByState (state : String) : StatePermissions :=
  if state = "awaiting_itemName" then ⟨["/cancel"], []⟩
  else if state = "waiting_courier_reply" then ⟨["/cancel"], ["photo_yes", "photo_no", "cancel"]⟩
  else if state = "awaiting_photo_from_courier" then ⟨["/cancel"], []⟩
  else ⟨["/cancel"], []⟩

/-- `SessionService.getDefaultStepDescription`. -/
def getDefaultStepDescription (state : String) : String :=
  if state = "waiting_courier_reply" then "Ожидание вашего комментария по заказу"
  else if state = "awaiting_photo_from_courier" then
    "Ожидание фотодоказательств (максимум 3 фотографии)"
  else if state = "awaiting_itemName" then "Ждём наименование сырья"
  else "Завершите текущий этап диалога"

/-- `SessionService.get`. -/
def svcGet (key : Nat) (st : SvcState) : Option SessionType :=
  mapGet key st.sessions

/-- `SessionService.delete`: `if (session) clearTimeout(session.timer);
sessions.delete(key)`. -/
def svcDelete (key : Nat) (st : SvcState) : SvcState :=
  let st₁ :=
    match mapGet key st.sessions with
    | some s => { st with timers := st.timers.filter (fun t => t.id ≠ s.timer) }
    | none => st
  { st₁ with sessions := mapDel key st₁.sessions }

/-- `SessionService.create`: deletes any existing session for `key`
(cancelling its timer), schedules a fresh 30-minute timer, and stores the
session built from the partial initialization data. -/
def svcCreate (key : Nat) (p : SessionPatch) (st : SvcState) : SvcState :=
  let st₁ := svcDelete key st
  let tid := st₁.nextTimerId
  let state := jsOrString p.state "initial"
  let perms := getPermissionsByState state
  let stepDescription := jsOrString p.stepDescription (getDefaultStepDescription state)
  let session : SessionType :=
    { state := state
      orderId := p.orderId
      allowedCommands := p.allowedCommands.getD perms.allowedCommands
      allowedCallbacks := p.allowedCallbacks.getD perms.allowedCallbacks
      timer := tid
      stepDescription := some stepDescription }
  { st₁ with
    sessions := mapSet key session st₁.sessions
    timers := st₁.timers ++ [⟨tid, key, st₁.now + DIALOG_TIMEOUT⟩]
    nextTimerId := tid + 1 }

/-- `SessionService.update`: no-op when the session is absent; otherwise
cancels the session's timer, schedules a fresh 30-minute timer from the
current time, and stores the merged session (`{...current, ...partial,
timer}`). -/
def svcUpdate (key : Nat) (p : SessionPatch) (st : SvcState) : SvcState :=
  match mapGet key st.sessions with
  | none => st
  | some cur =>
    let st₁ := { st with timers := st.timers.filter (fun t => t.id ≠ cur.timer) }
    let tid := st₁.nextTimerId
    let updated : SessionType :=
      { state := p.state.getD cur.state
        orderId := (p.orderId.map some).getD cur.orderId
        allowedCommands := p.allowedCommands.getD cur.allowedCommands
        allowedCallbacks := p.allowedCallbacks.getD cur.allowedCallbacks
        timer := tid
        stepDescription := (p.stepDescription.map some).getD cur.stepDescription }
    { st₁ with
      sessions := mapSet key updated st₁.sessions
      timers := st₁.timers ++ [⟨tid, key, st₁.now + DIALOG_TIMEOUT⟩]
      nextTimerId := tid + 1 }

/-- A pending `setTimeout(() => this.delete(key), ...)` fires: the runtime
removes the timer from the pending set and the callback deletes `key`. -/
def svcTimerFire (t : TimerRec) (st : SvcState) : SvcState :=
  svcDelete t.key { st with timers := st.timers.filter (fun u => u.id ≠ t.id) }

/-- The clock advances by `d` milliseconds. -/
def svcTick (d : Int) (st : SvcState) : SvcState :=
  { st with now := st.now + d }

/-- `SessionService.isCommandAllowed`. -/
def isCommandAllowed (session : SessionType) (command : String) : Bool :=
  session.allowedCommands.contains command

/-- `SessionService.isCallbackAllowed`. -/
def isCallbackAllowed (session : SessionType) (payload : String) : Bool :=
  session.allowedCallbacks.contains payload

/-- States of a `SessionService` instance reachable from construction by
any interleaving of operations and timer fires. -/
inductive SvcReachable : SvcState → Prop where
  | init : SvcReachable ⟨[], [], 0, 0⟩
  | create {st : SvcState} (key : Nat) (p : SessionPatch) :
      SvcReachable st → SvcReachable (svcCreate key p st)
  | update {st : SvcState} (key : Nat) (p : SessionPatch) :
      SvcReachable st → SvcReachable (svcUpdate key p st)
  | del {st : SvcState} (key : Nat) :
      SvcReachable st → SvcReachable (svcDelete key st)
  | fire {st : SvcState} (t : TimerRec) :
      t ∈ st.timers → t.fireAt ≤ st.now → SvcReachable st → SvcReachable (svcTimerFire t st)
  | tick {st : SvcState} (d : Int) :
      0 ≤ d → SvcReachable st → SvcReachable (svcTick d st)

/-- The timers currently pending for `key`. -/
def timersFor (key : Nat) (ts : List TimerRec) : List TimerRec :=
  ts.filter (fun t => t.key = key)

/-- Store invariant: session keys are unique (a JS `Map`), pending timer
ids are unique and below the allocator, and every stored session owns
exactly the one pending timer whose id it records — keys without a
session have no pending timer. -/
structure SvcInv (st : SvcState) : Prop where
  keysNodup : (st.sessions.map Prod.fst).Nodup
  timerIdsNodup : (st.timers.map TimerRec.id).Nodup
  idsLt : ∀ t ∈ st.timers, t.id < st.nextTimerId
  sessTimer : ∀ key s, mapGet key st.sessions = some s →
    ∃ fa, timersFor key st.timers = [⟨s.timer, key, fa⟩]
  noSessNoTimer : ∀ key, mapGet key st.sessions = none → timersFor key st.timers = []

/-! ## `DialogBlockerMiddleware` (`src/bot/middleware/dialog-blocker.middleware.ts`) -/

/-- The part of the bot context that the middleware inspects. -/
structure BlockerCtx where
  userId : Option Nat
  callbackPayload : Option String
  messageText : Option String

/-- Result of one middleware invocation: the event either falls through to
the next handler or is consumed with a blocking reply. -/
inductive BlockerOutcome where
  | passed
  | blocked (message : String)
deriving Repr, DecidableEq

def blockedCallbackMessage (stepDescription : String) : String :=
  "⏸️ Сейчас идёт активный диалог. Сначала завершите текущий шаг:\n\n" ++ stepDescription ++
    "\n\nИспользуйте `/cancel` для отмены диалога."

def blockedCommandMessage (stepDescription : String) : String :=
  "⏸️ Сейчас идёт активный диалог. Сначала завершите текущий шаг:\n\n" ++ stepDescription ++
    "\n\nИспользуйте `/cancel` для отмены диалога или `/help` для справки."

/-- Leading-whitespace stripper used to model JS `String.prototype.trim`. -/
def jsTrimLeft : List Char → List Char
  | [] => []
  | c :: rest => if c.isWhitespace then jsTrimLeft rest else c :: rest

/-- JS `s.trim()`: strips whitespace from both ends. -/
def jsTrim (s : String) : String :=
  ⟨(jsTrimLeft (jsTrimLeft s.data.reverse).reverse)⟩

/-- `messageText.trim().split(' ')[0]` (JS `split` always returns at
least one element). -/
def commandToken (messageText : String) : String :=
  ((jsTrim messageText).splitOn " ").headD ""

/-- The command-text check of `DialogBlockerMiddleware.use`: a non-empty
message starting with `/` is parsed to its first token and checked against
the session's allow-list. -/
def dialogBlockerCommandCheck (ctx : BlockerCtx) (session : SessionType)
    (stepDescription : String) : BlockerOutcome :=
  match ctx.messageText with
  | none => .passed
  | some messageText =>
    if messageText ≠ "" ∧ messageText.startsWith "/" then
      if ¬ isCommandAllowed session (commandToken messageText) then
        .blocked (blockedCommandMessage stepDescription)
      else .passed
    else .passed

/-- `DialogBlockerMiddleware.use`: reads the session of `ctx.user.user_id`
from the store and blocks disallowed callbacks and commands.  The
middleware never mutates the store; the state is returned to make the
frame property explicit. -/
def dialogBlockerUse (ctx : BlockerCtx) (st : SvcState) : SvcState × BlockerOutcome :=
  match ctx.userId with
  | none => (st, .passed)
  | some userId =>
    match mapGet userId st.sessions with
    | none => (st, .passed)
    | some session =>
      let stepDescription := jsOrString session.stepDescription "Завершите текущий этап диалога"
      match ctx.callbackPayload with
      | some payload =>
        if payload ≠ "" ∧ ¬ isCallbackAllowed session payload then
          (st, .blocked (blockedCallbackMessage stepDescription))
        else (st, dialogBlockerCommandCheck ctx session stepDescription)
      | none => (st, dialogBlockerCommandCheck ctx session stepDescription)

/-! ## Authentication store and handlers
(`src/auth/auth.service/session.manager.service.ts`,
`src/auth/auth.service/steps/code-step.handler.ts`,
`src/auth/auth.service/auth.service.ts` (`ResendCodeHandler`),
`src/auth/auth.service/utils/sms-sender.util.ts`,
`src/auth/auth.service/handlers/message.handler.ts`).

The auth store is a JS `Map<number, AuthSession>`, modelled as a
functional finite map keyed by chat id.  Timestamps are milliseconds. -/

structure Staff where
  id : String
  firstName : String
  lastName : String
deriving Repr, DecidableEq

/-- `AuthSession` (`src/auth/auth.service/types/auth.session.type.ts`). -/
structure AuthSession where
  step : String
  phone : Option String := none
  fullname : Option String := none
  code : Option Int := none
  possibleStaff : Option (List Staff) := none
  matchedStaff : Option Staff := none
  createdAt : Int
  timeoutId : Option Nat := none
  attemptsCount : Nat
  lastSmsSentAt : Option Int := none
  lastResendRequestAt : Option Int := none
deriving Repr, DecidableEq

/-- `Partial<AuthSession>`: `none` means the field is absent from the
partial object passed to `update`. -/
structure AuthSessionPatch where
  step : Option String := none
  phone : Option String := none
  fullname : Option String := none
  code : Option Int := none
  possibleStaff : Option (List Staff) := none
  matchedStaff : Option Staff := none
  timeoutId : Option (Option Nat) := none
  attemptsCount : Option Nat := none
  lastSmsSentAt : Option Int := none
  lastResendRequestAt : Option Int := none
deriving Repr

/-- The object-spread merge `{...currentSession, ...partial}`. -/
def authMerge (cur : AuthSession) (p : AuthSessionPatch) : AuthSession where
  step := p.step.getD cur.step
  phone := (p.phone.map some).getD cur.phone
  fullname := (p.fullname.map some).getD cur.fullname
  code := (p.code.map some).getD cur.code
  possibleStaff := (p.possibleStaff.map some).getD cur.possibleStaff
  matchedStaff := (p.matchedStaff.map some).getD cur.matchedStaff
  createdAt := cur.createdAt
  timeoutId := p.timeoutId.getD cur.timeoutId
  attemptsCount := p.attemptsCount.getD cur.attemptsCount
  lastSmsSentAt := (p.lastSmsSentAt.map some).getD cur.lastSmsSentAt
  lastResendRequestAt := (p.lastResendRequestAt.map some).getD cur.lastResendRequestAt

/-- The auth session store: the contents of the `Map` keyed by chat id. -/
def MgrStore : Type := Nat → Option AuthSession

/-- Observable effects of auth handlers: replies, log lines, SMS sends and
the identity-link database write. -/
inductive AuthEff where
  | reply (text : String)
  | logWarn (text : String)
  | logDebug (text : String)
  | logInfo (text : String)
  | logError (text : String)
  | smsSend (phone : String) (message : String)
  | dbLink (staffId : String) (userId : Nat)
deriving Repr, DecidableEq

/-- `SessionManagerService.get` (value view; the reference/shallow-copy
behaviour is modelled separately for C10). -/
def mgrGet (chatId : Nat) (store : MgrStore) : Option AuthSession :=
  store chatId

/-- `SessionManagerService.create`: unconditionally stores a fresh
`awaiting_phone` session for `chatId`. -/
def mgrCreate (chatId : Nat) (now : Int) (store : MgrStore) : MgrStore :=
  fun k => if k = chatId then
    some { step := "awaiting_phone", createdAt := now, attemptsCount := 0 }
  else store k

/-- `SessionManagerService.update`: merges the partial fields into the
existing session; when the session is absent it logs a warning and leaves
the store untouched (it must not create a session). -/
def mgrUpdate (chatId : Nat) (p : AuthSessionPatch) (store : MgrStore) :
    MgrStore × List AuthEff :=
  match store chatId with
  | none =>
    (store, [.logWarn ("[session_not_found] chatId: " ++ toString chatId ++ " для обновления")])
  | some cur =>
    (fun k => if k = chatId then some (authMerge cur p) else store k,
     [.logDebug ("[session_updated] chatId: " ++ toString chatId)])

/-- `SessionManagerService.delete`: clears the `timeoutId` field (the
private `clearTimeout` helper re-stores the session without it) and then
removes the entry. -/
def mgrDelete (chatId : Nat) (store : MgrStore) : MgrStore :=
  let store₁ : MgrStore :=
    match store chatId with
    | some s =>
      if s.timeoutId.isSome then
        fun k => if k = chatId then some { s with timeoutId := none } else store k
      else store
    | none => store
  fun k => if k = chatId then none else store₁ k

/-! ### Message catalog (`src/auth/auth.service/utils/messages.constants.ts`) -/

def SESSION_NOT_FOUND : String :=
  "Нет активной сессии аутентификации. Начните с /auth_start"

def CODE_INVALID : String := "Введите 4 цифры кода"

def CODE_ERROR : String := "Ошибка обработки кода"

def STAFF_NOT_FOUND : String := "Произошла ошибка: не найден сотрудник. Начните заново."

def ATTEMPTS_EXCEEDED : String :=
  "Вы использовали все 10 попыток. Регистрация отменена. Начните заново с /auth_start"

def ATTEMPT_FAILED (remaining : Nat) : String :=
  "Неверный код. Осталось попыток: " ++ toString remaining ++ ". Введите 4 цифры."

def SUCCESS_AUTH (lastName firstName : String) : String :=
  "Успешно! " ++ lastName ++ " " ++ firstName ++ " успешно авторизован. \n" ++
    "Для запуска введите команду /start"

def STEP_MISMATCH : String := "Сейчас нельзя запросить новый код. Следуйте инструкциям."

def SMS_SEND_ERROR : String := "Не удалось отправить код подтверждения. Попробуйте позже."

def SMS_COOLDOWN (minutesLeft : Int) : String :=
  "Код уже был отправлен. Повторно можно запросить через " ++ toString minutesLeft ++ " мин."

def NEW_SMS_SENT (phone : String) : String :=
  "Новый код отправлен на " ++ phone ++ ". Введите 4 цифры. " ++
    "Повторно запросить код можно через 30 мин."

/-! ### `CodeStepHandler.handle` -/

/-- `CodeGeneratorService.isValidCodeInput`: the regex `^\d{4}$`. -/
def isValidCodeInput (input : String) : Bool :=
  input.length = 4 && input.data.all Char.isDigit

/-- JS `parseInt(s, 10)` restricted to the shapes that reach it in the
code-step handler (after the 4-digit check): an all-digit string parses to
its decimal value, anything else is `NaN` (`none`). -/
def jsParseInt (s : String) : Option Int :=
  if s.data ≠ [] ∧ s.data.all Char.isDigit then
    some (Int.ofNat (s.data.foldl (fun acc c => acc * 10 + (c.toNat - 48)) 0))
  else none

/-- The part of the bot `Context` that the code-step handler reads. -/
structure MsgCtx where
  userId : Option Nat
deriving Repr, DecidableEq

/-- Auth world: the session store plus the persisted identity links
(`idMax` rows written by `IdMaxService.linkIdMax`). -/
structure AuthWorld where
  store : MgrStore
  links : List (String × Nat)

/-- `CodeStepHandler.handle` (`steps/code-step.handler.ts`): validates the
input, bumps the attempt counter, enforces the 10-attempt limit, compares
the code and on success persists the identity link and deletes the
session. -/
def codeStepHandle (ctx : MsgCtx) (chatId : Nat) (inputText : String) (w : AuthWorld) :
    AuthWorld × List AuthEff :=
  match mgrGet chatId w.store with
  | none => (w, [.reply SESSION_NOT_FOUND])
  | some session =>
    if ¬ isValidCodeInput inputText then (w, [.reply CODE_INVALID])
    else
      match jsParseInt inputText with
      | none => (w, [.reply CODE_ERROR])
      | some code =>
        match session.matchedStaff with
        | none =>
          ({ w with store := mgrDelete chatId w.store }, [.reply STAFF_NOT_FOUND])
        | some staff =>
          let attemptsCount := session.attemptsCount + 1
          let upd := mgrUpdate chatId { attemptsCount := some attemptsCount } w.store
          if attemptsCount ≥ 10 then
            ({ w with store := mgrDelete chatId upd.1 },
             upd.2 ++ [.reply ATTEMPTS_EXCEEDED,
               .logInfo ("[attempts_exceeded] chatId: " ++ toString chatId)])
          else if session.code = some code then
            match ctx.userId with
            | none => ({ w with store := upd.1 }, upd.2)
            | some userId =>
              ({ store := mgrDelete chatId upd.1, links := w.links ++ [(staff.id, userId)] },
               upd.2 ++ [.dbLink staff.id userId,
                 .reply (SUCCESS_AUTH staff.lastName staff.firstName),
                 .logInfo ("[auth_success] staffId: " ++ staff.id)])
          else
            ({ w with store := upd.1 },
             upd.2 ++ [.reply (ATTEMPT_FAILED (10 - attemptsCount)),
               .logInfo ("[code_mismatch] chatId: " ++ toString chatId)])

/-- Staff member used by the concrete scenarios. -/
def demoStaff : Staff := ⟨"staff-1", "Иван", "Петров"⟩

/-- An `awaiting_code` session that has already burnt 9 attempts. -/
def nineAttemptsSession : AuthSession :=
  { step := "awaiting_code", phone := some "+79991234567", code := some 1234,
    matchedStaff := some demoStaff, createdAt := 0, attemptsCount := 9 }

def nineAttemptsWorld : AuthWorld :=
  ⟨fun k => if k = 7 then some nineAttemptsSession else none, []⟩

/-- A fresh `awaiting_code` session (no failed attempts yet). -/
def freshCodeSession : AuthSession :=
  { step := "awaiting_code", phone := some "+79991234567", code := some 1234,
    matchedStaff := some demoStaff, createdAt := 0, attemptsCount := 0 }

def freshCodeWorld : AuthWorld :=
  ⟨fun k => if k = 7 then some freshCodeSession else none, []⟩

/-! ### `/resend_code` (`ResendCodeHandler` + `SmsSenderUtil.sendAuthCode`) -/

def RESEND_CODE_SPAM_LIMIT : Int := 5 * 60 * 1000

def SMS_RESEND_COOLDOWN : Int := 30 * 60 * 1000

/-- `Math.ceil(x / 60000)` for the non-negative remainders used in the
cooldown replies. -/
def ceilMinutes (x : Int) : Int := (x + 59999) / 60000

/-- Environment of one `/resend_code` invocation: the current clock, the
code produced by `CodeGeneratorService.generateCode()` and the status the
SMS.ru API returns for this send. -/
structure ResendEnv where
  now : Int
  newCode : Int
  smsOk : Bool

/-- `SmsSenderUtil.sendAuthCode`: generates a code, stores it in the
session together with `lastSmsSentAt := now` and `attemptsCount := 0`,
then performs the SMS API call; returns whether the API reported `OK`. -/
def sendAuthCode (env : ResendEnv) (chatId : Nat) (phone : String) (store : MgrStore) :
    MgrStore × List AuthEff × Bool :=
  let upd := mgrUpdate chatId
    { code := some env.newCode, lastSmsSentAt := some env.now, attemptsCount := some 0 } store
  (upd.1,
   upd.2 ++ [.smsSend phone ("Код авторизации на сайте Dodo-sky: " ++ toString env.newCode)],
   env.smsOk)

/-- `ResendCodeHandler.handleResendCode`: re-issues a code only when a
session exists, it is in `awaiting_code`, the 5-minute anti-spam window
since `lastResendRequestAt` has elapsed and the 30-minute cooldown since
`lastSmsSentAt` has elapsed. -/
def handleResendCode (env : ResendEnv) (chatIdOpt : Option Nat) (store : MgrStore) :
    MgrStore × List AuthEff :=
  match chatIdOpt with
  | none => (store, [.reply "Не удалось определить чат. Попробуйте снова."])
  | some chatId =>
    match mgrGet chatId store with
    | none => (store, [.reply SESSION_NOT_FOUND])
    | some session =>
      if session.step ≠ "awaiting_code" then (store, [.reply STEP_MISMATCH])
      else
        let timeSinceLastResend := env.now - session.lastResendRequestAt.getD 0
        if timeSinceLastResend < RESEND_CODE_SPAM_LIMIT then
          (store, [.reply ("Повторить запрос можно не чаще чем раз в " ++
            toString (ceilMinutes (RESEND_CODE_SPAM_LIMIT - timeSinceLastResend)) ++ " мин.")])
        else
          let timeSinceLastSms := env.now - session.lastSmsSentAt.getD 0
          if timeSinceLastSms < SMS_RESEND_COOLDOWN then
            (store, [.reply (SMS_COOLDOWN (ceilMinutes (SMS_RESEND_COOLDOWN - timeSinceLastSms)))])
          else
            let upd := mgrUpdate chatId { lastResendRequestAt := some env.now } store
            let send := sendAuthCode env chatId (session.phone.getD "") upd.1
            if send.2.2 then
              (send.1, upd.2 ++ send.2.1 ++ [.reply (NEW_SMS_SENT (session.phone.getD ""))])
            else
              (mgrDelete chatId send.1,
               upd.2 ++ send.2.1 ++
                 [.reply SMS_SEND_ERROR, .logError ("[resend_code_failed] chatId: " ++
                   toString chatId)])

/-- A session eligible for `/resend_code`: in `awaiting_code`, with no
recorded resend request or SMS send. -/
def resendSession : AuthSession :=
  { step := "awaiting_code", phone := some "+79991234567", code := some 1234,
    matchedStaff := some demoStaff, createdAt := 0, attemptsCount := 4 }

def resendStore : MgrStore := fun k => if k = 7 then some resendSession else none

/-! ### `MessageHandler.handleMessage` (the dialogue orchestrator) -/

/-- `PhoneValidationService.isValidPhone`: the regex `^\+[1-9]\d{6,14}$`
on the trimmed input. -/
def isValidPhone (phone : String) : Bool :=
  match (jsTrim phone).data with
  | '+' :: d :: rest =>
    ('1' ≤ d && d ≤ '9') && rest.all Char.isDigit &&
      (6 ≤ rest.length && rest.length ≤ 14)
  | _ => false

def PHONE_PROMPT : String := "Введите номер в формате 79991234567"

/-- `ctx.message?.body?.text?.trim()` followed by the JS falsy check. -/
def trimmedText : Option String → Option String
  | none => none
  | some t => if jsTrim t = "" then none else some (jsTrim t)

/-- The inbound `message_created` event data used by the orchestrator. -/
structure InboundMsg where
  chatId : Option Nat
  text : Option String

/-- A dialogue step handler as seen by the orchestrator: it returns the
world as left at its return-or-throw point, its effects so far, and
`some e` when it threw the JS error `e`. -/
def StepFn : Type := MsgCtx → Nat → String → AuthWorld → AuthWorld × List AuthEff × Option String

/-- Outcome of the orchestrator: the event either fell through to `next()`
or was consumed. -/
inductive MsgOutcome where
  | nextCalled
  | handled
deriving Repr, DecidableEq

/-- The `switch (session.step)` dispatch; `none` is the `default` case. -/
def dispatchStep (hPhone hFullname hCode : StepFn) (ctx : MsgCtx) (chatId : Nat)
    (inputText : String) (w : AuthWorld) (step : String) :
    Option (AuthWorld × List AuthEff × Option String) :=
  if step = "awaiting_phone" then some (hPhone ctx chatId inputText w)
  else if step = "awaiting_fullname" then some (hFullname ctx chatId inputText w)
  else if step = "awaiting_code" then some (hCode ctx chatId inputText w)
  else none

/-- `MessageHandler.handleMessage`: looks up the session, validates the
text, dispatches to the step handler for `session.step` inside a
`try/catch`; the catch logs the error, replies with the generic error
message and deletes the session. -/
def handleMessage (hPhone hFullname hCode : StepFn) (ctx : MsgCtx) (msg : InboundMsg)
    (w : AuthWorld) : AuthWorld × List AuthEff × MsgOutcome :=
  match msg.chatId with
  | none => (w, [.logInfo "[message_created] Не найден chatId"], .nextCalled)
  | some chatId =>
    match mgrGet chatId w.store with
    | none => (w, [], .nextCalled)
    | some session =>
      match trimmedText msg.text with
      | none => (w, [.reply PHONE_PROMPT], .handled)
      | some inputText =>
        if session.step = "awaiting_phone" ∧ ¬ isValidPhone inputText then
          (w, [.reply PHONE_PROMPT], .handled)
        else
          match dispatchStep hPhone hFullname hCode ctx chatId inputText w session.step with
          | none =>
            ({ w with store := mgrDelete chatId w.store },
             [.logWarn ("Неизвестная стадия сессии для chatId " ++ toString chatId),
              .reply "Произошла ошибка состояния. Начните заново с /auth_start"],
             .handled)
          | some (w₁, fx, thrown) =>
            match thrown with
            | none => (w₁, fx, .handled)
            | some e =>
              ({ w₁ with store := mgrDelete chatId w₁.store },
               fx ++ [.logError ("Ошибка обработки сообщения: " ++ e),
                 .reply "Произошла ошибка, попробуйте позже"],
               .handled)

/-- A step handler that throws unconditionally. -/
def throwingStep : StepFn := fun _ _ _ w => (w, [.logDebug "step entered"], some "boom")

/-! ## Problem-order courier reply
(`src/bot/delivery/problem-order-courier-reply/courier-dialog.service.ts`).
The flow drives the `SessionService` store of the first part; the
relational rows it touches are `problemOrders.courierComment` and the
`problemOrderPhotos` table. -/

/-- A message attachment; only the `type === 'image'` ones are photos. -/
inductive Attachment where
  | image (payload : Nat)
  | other (kind : String)
deriving Repr, DecidableEq

def Attachment.isImage : Attachment → Bool
  | .image _ => true
  | .other _ => false

/-- One `problemOrderPhotos` row. -/
structure PhotoRec where
  orderId : String
  url : String
  index : Nat
deriving Repr, DecidableEq

/-- The database rows the courier dialogue touches. -/
structure CourierDb where
  courierComments : List (String × String)
  photos : List PhotoRec
deriving Repr, DecidableEq

/-- `prisma.problemOrders.update({where: {orderId}, data: {courierComment}})`. -/
def setCommentRow (orderId comment : String) :
    List (String × String) → List (String × String)
  | [] => [(orderId, comment)]
  | (k, v) :: rest =>
    if k = orderId then (orderId, comment) :: rest
    else (k, v) :: setCommentRow orderId comment rest

def TEXT_REJECTED : String :=
  "<b>Ответ не записан.</b> Принимается только текст (максимум 400 символов)"

def ASK_PHOTO : String :=
  "Отлично приняли ваш ответ. Будет ли вы прикладывать фотодоказательства?"

def PHOTO_NOT_FOUND_REPLY : String := "Ошибка: фото не найдено. Пожалуйста, отправьте фото."

def PHOTO_SAVE_FAILED_REPLY : String :=
  "Не удалось сохранить фото. Проверьте, что файлы доступны, и попробуйте снова."

def PHOTO_SAVED_REPLY : String :=
  "Я сохранил ваш ответ и фото, как только управляющий примет решение, " ++
    "то я обязательно вам его сообщу. Спасибо за сотрудничество"

/-- The part of the bot context the courier dialogue reads. -/
structure CourierCtx where
  userId : Option Nat
  attachments : Option (List Attachment)
  messageText : Option String

/-- `CourierDialogService.courierReply`: records the courier's comment
for the order unless the text is missing, empty (falsy) or longer than
400 characters, which is rejected without touching the database. -/
def courierReply (ctx : CourierCtx) (orderId : String) (db : CourierDb) :
    CourierDb × List String :=
  match ctx.messageText with
  | none => (db, [TEXT_REJECTED])
  | some comment =>
    if comment = "" then (db, [TEXT_REJECTED])
    else if 400 < comment.length then (db, [TEXT_REJECTED])
    else
      ({ db with courierComments := setCommentRow orderId comment db.courierComments },
       [ASK_PHOTO])

/-- The rows written by `savePhotoUrlsToDB`: urls with 1-based indices. -/
def photoRecsFrom (orderId : String) : List String → Nat → List PhotoRec
  | [], _ => []
  | u :: rest, i => ⟨orderId, u, i + 1⟩ :: photoRecsFrom orderId rest (i + 1)

/-- `CourierDialogService.savePhotoUrlsToDB`: deletes every stored photo
row of the order, then inserts the new urls with indices 1, 2, … -/
def savePhotoUrlsToDB (urls : List String) (orderId : String) (db : CourierDb) : CourierDb :=
  { db with
    photos := db.photos.filter (fun p => p.orderId ≠ orderId) ++ photoRecsFrom orderId urls 0 }

/-- `FileStorageUtil.uploadPhotos`: one upload attempt per photo, keeping
the urls of the successful ones in order; `uploadOne` is the outcome the
object storage gives for each photo. -/
def uploadPhotos (uploadOne : Attachment → Option String) (photos : List Attachment) :
    List String :=
  photos.filterMap uploadOne

/-- `CourierDialogService.finishDialogWithPhoto`: accepts at most 3 image
attachments (extras are dropped), uploads them, replaces the order's photo
rows and ends the session. -/
def finishDialogWithPhoto (uploadOne : Attachment → Option String) (ctx : CourierCtx)
    (st : SvcState) (db : CourierDb) : SvcState × CourierDb × List String :=
  match ctx.userId with
  | none => (st, db, [])
  | some userId =>
    match mapGet userId st.sessions with
    | none => (st, db, [])
    | some session =>
      match session.orderId with
      | none => (st, db, [])
      | some orderId =>
        if orderId = "" then (st, db, [])
        else if session.state ≠ "awaiting_photo_from_courier" then (st, db, [])
        else
          let rawPhotos := (ctx.attachments.getD []).filter Attachment.isImage
          if rawPhotos.isEmpty then (st, db, [PHOTO_NOT_FOUND_REPLY])
          else
            let uploadedUrls := uploadPhotos uploadOne (rawPhotos.take 3)
            if uploadedUrls.isEmpty then (st, db, [PHOTO_SAVE_FAILED_REPLY])
            else
              (svcDelete userId st, savePhotoUrlsToDB uploadedUrls orderId db,
               [PHOTO_SAVED_REPLY])

def demoUpload : Attachment → Option String :=
  fun a => match a with
  | .image n => some ("https://storage/ord-1/" ++ toString n)
  | .other _ => none

def demoCourierPatch : SessionPatch :=
  { state := some "awaiting_photo_from_courier", orderId := some "ord-1" }

def demoCourierSt : SvcState :=
  svcCreate 5 demoCourierPatch ⟨[], [], 0, 0⟩

/-- A courier reply carrying four image attachments and one video. -/
def demoCourierCtx : CourierCtx :=
  ⟨some 5, some [.image 1, .other "video", .image 2, .image 3, .image 4], none⟩

def demoCourierDb : CourierDb :=
  ⟨[], [⟨"ord-1", "old-url", 1⟩, ⟨"other-order", "keep-url", 1⟩]⟩

def demoCourierSession : SessionType :=
  ⟨"awaiting_photo_from_courier", some "ord-1", ["/cancel"], [], 0,
    some "Ожидание фотодоказательств (максимум 3 фотографии)"⟩

def longComment : String := ⟨List.replicate 401 'a'⟩

/-! ### Reference-level model of `SessionManagerService.get` (C10)

`get` returns `{...session}` — a fresh object spread-copied from the
stored one.  To state what that buys, sessions are placed on an explicit
heap of object cells and the `Map` holds references (addresses) into it;
the spread allocates a fresh cell. -/

structure Heap where
  cells : Nat → Option AuthSession
  nextAddr : Nat

/-- The `Map<number, AuthSession>` as a table of object references. -/
structure RefMgr where
  heap : Heap
  table : Nat → Option Nat

/-- `get(chatId)`: `const s = map.get(chatId); return s ? {...s} : undefined` —
when present, a fresh cell holding a copy of the record is allocated and
its reference returned.  (Under the store's well-formedness a stored
reference always points at a live cell; the dangling branch is
unreachable.) -/
def mgrGetRef (chatId : Nat) (m : RefMgr) : RefMgr × Option Nat :=
  match m.table chatId with
  | none => (m, none)
  | some addr =>
    match m.heap.cells addr with
    | none => (m, none)
    | some v =>
      let fresh := m.heap.nextAddr
      ({ m with heap :=
          { cells := fun x => if x = fresh then some v else m.heap.cells x,
            nextAddr := fresh + 1 } },
       some fresh)

/-- A caller mutating a top-level field of the object behind `addr`. -/
def writeField (addr : Nat) (f : AuthSession → AuthSession) (h : Heap) : Heap :=
  { h with cells := fun x => if x = addr then (h.cells x).map f else h.cells x }

/-! ## Theorems -/
theorem mapGet_set_self {α : Type} (k : Nat) (v : α) (l : List (Nat × α)) :
    mapGet k (mapSet k v l) = some v := by
  induction l with
  | nil => simp [mapGet, mapSet]
  | cons hd tl ih =>
    obtain ⟨k₁, v₁⟩ := hd
    by_cases h : k₁ = k <;> simp [mapGet, mapSet, h, ih]

theorem mapGet_set_ne {α : Type} {k k₂ : Nat} (v : α) (l : List (Nat × α)) (h : k₂ ≠ k) :
    mapGet k₂ (mapSet k v l) = mapGet k₂ l := by
  have hkk : k ≠ k₂ := fun h₁ => h h₁.symm
  induction l with
  | nil => simp [mapGet, mapSet, hkk]
  | cons hd tl ih =>
    obtain ⟨k₁, v₁⟩ := hd
    by_cases h₁ : k₁ = k
    · subst h₁
      simp [mapGet, mapSet, hkk, h]
    · by_cases h₂ : k₁ = k₂ <;> simp [mapGet, mapSet, h₁, h₂, ih, hkk, h]

theorem mapGet_del_ne {α : Type} {k k₂ : Nat} (l : List (Nat × α)) (h : k₂ ≠ k) :
    mapGet k₂ (mapDel k l) = mapGet k₂ l := by
  have hkk : k ≠ k₂ := fun h₁ => h h₁.symm
  induction l with
  | nil => simp [mapDel]
  | cons hd tl ih =>
    obtain ⟨k₁, v₁⟩ := hd
    by_cases h₁ : k₁ = k
    · subst h₁
      simp [mapGet, mapDel, hkk, h]
    · by_cases h₂ : k₁ = k₂ <;> simp [mapGet, mapDel, h₁, h₂, ih, hkk, h]

theorem mapGet_eq_none_iff {α : Type} (k : Nat) (l : List (Nat × α)) :
    mapGet k l = none ↔ k ∉ l.map Prod.fst := by
  induction l with
  | nil => simp [mapGet]
  | cons hd tl ih =>
    obtain ⟨k₁, v₁⟩ := hd
    by_cases h₁ : k₁ = k
    · subst h₁
      simp [mapGet]
    · have h₂ : ¬ k = k₁ := fun h₂ => h₁ h₂.symm
      simp [mapGet, h₁, h₂, ih]

theorem mapGet_del_self {α : Type} (k : Nat) (l : List (Nat × α))
    (h : (l.map Prod.fst).Nodup) : mapGet k (mapDel k l) = none := by
  induction l with
  | nil => simp [mapDel, mapGet]
  | cons hd tl ih =>
    obtain ⟨k₁, v₁⟩ := hd
    simp only [List.map_cons, List.nodup_cons] at h
    by_cases h₁ : k₁ = k
    · subst h₁
      rw [mapDel, if_pos rfl, mapGet_eq_none_iff]
      exact h.1
    · simp [mapDel, mapGet, h₁, ih h.2]

theorem mapDel_of_get_none {α : Type} {k : Nat} {l : List (Nat × α)}
    (h : mapGet k l = none) : mapDel k l = l := by
  induction l with
  | nil => simp [mapDel]
  | cons hd tl ih =>
    obtain ⟨k₁, v₁⟩ := hd
    by_cases h₁ : k₁ = k
    · simp [mapGet, h₁] at h
    · simp only [mapGet, h₁, if_false] at h
      simp [mapDel, h₁, ih h]

theorem keys_set_subset {α : Type} (k : Nat) (v : α) (l : List (Nat × α)) :
    ∀ x ∈ (mapSet k v l).map Prod.fst, x = k ∨ x ∈ l.map Prod.fst := by
  induction l with
  | nil => simp [mapSet]
  | cons hd tl ih =>
    obtain ⟨k₁, v₁⟩ := hd
    intro x hx
    by_cases h₁ : k₁ = k
    · rw [mapSet, if_pos h₁] at hx
      simp only [List.map_cons, List.mem_cons] at hx
      rcases hx with hx | hx
      · exact Or.inl hx
      · exact Or.inr (List.mem_cons_of_mem _ hx)
    · rw [mapSet, if_neg h₁] at hx
      simp only [List.map_cons, List.mem_cons] at hx
      rcases hx with hx | hx
      · exact Or.inr (hx ▸ List.mem_cons_self _ _)
      · rcases ih x hx with h | h
        · exact Or.inl h
        · exact Or.inr (List.mem_cons_of_mem _ h)

theorem keys_nodup_set {α : Type} (k : Nat) (v : α) (l : List (Nat × α))
    (h : (l.map Prod.fst).Nodup) : ((mapSet k v l).map Prod.fst).Nodup := by
  induction l with
  | nil => simp [mapSet]
  | cons hd tl ih =>
    obtain ⟨k₁, v₁⟩ := hd
    simp only [List.map_cons, List.nodup_cons] at h
    by_cases h₁ : k₁ = k
    · subst h₁
      rw [mapSet, if_pos rfl]
      simp only [List.map_cons, List.nodup_cons]
      exact h
    · rw [mapSet, if_neg h₁]
      simp only [List.map_cons, List.nodup_cons]
      refine ⟨fun hmem => ?_, ih h.2⟩
      rcases keys_set_subset k v tl k₁ hmem with h₂ | h₂
      · exact h₁ h₂
      · exact h.1 h₂

theorem keys_del_sublist {α : Type} (k : Nat) (l : List (Nat × α)) :
    ((mapDel k l).map Prod.fst).Sublist (l.map Prod.fst) := by
  induction l with
  | nil => simp [mapDel]
  | cons hd tl ih =>
    obtain ⟨k₁, v₁⟩ := hd
    by_cases h₁ : k₁ = k
    · simp only [mapDel, h₁, if_pos rfl, List.map_cons]
      exact (List.sublist_cons_self _ _)
    · simp only [mapDel, h₁, if_false, List.map_cons]
      exact ih.cons₂ _

theorem keys_nodup_del {α : Type} (k : Nat) (l : List (Nat × α))
    (h : (l.map Prod.fst).Nodup) : ((mapDel k l).map Prod.fst).Nodup :=
  (keys_del_sublist k l).nodup h

theorem countKey_le_one_of_nodup {α : Type} (k : Nat) (l : List (Nat × α))
    (h : (l.map Prod.fst).Nodup) : countKey k l ≤ 1 := by
  induction l with
  | nil => simp [countKey]
  | cons hd tl ih =>
    obtain ⟨k₁, v₁⟩ := hd
    simp only [List.map_cons, List.nodup_cons] at h
    by_cases h₁ : k₁ = k
    · subst h₁
      have : (tl.filter (fun e => e.1 = k₁)).length = 0 := by
        rw [List.length_eq_zero]
        rw [List.filter_eq_nil_iff]
        intro e he hek
        apply h.1
        simp only [decide_eq_true_eq] at hek
        exact hek ▸ (List.mem_map_of_mem Prod.fst he)
      simp [countKey, List.filter_cons, this]
    · have := ih h.2
      simpa [countKey, List.filter_cons, h₁] using this

theorem timer_id_inj {ts : List TimerRec} (h : (ts.map TimerRec.id).Nodup)
    {t u : TimerRec} (ht : t ∈ ts) (hu : u ∈ ts) (hid : t.id = u.id) : t = u :=
  List.inj_on_of_nodup_map h ht hu hid

theorem timersFor_filter_swap (key : Nat) (q : TimerRec → Bool) (ts : List TimerRec) :
    timersFor key (ts.filter q) = (timersFor key ts).filter q := by
  induction ts with
  | nil => simp [timersFor]
  | cons hd tl ih =>
    by_cases h₁ : q hd <;> by_cases h₂ : hd.key = key <;>
      simp [timersFor, List.filter_cons, h₁, h₂] at ih ⊢ <;> simp [ih]

theorem timersFor_append (key : Nat) (ts us : List TimerRec) :
    timersFor key (ts ++ us) = timersFor key ts ++ timersFor key us := by
  simp [timersFor, List.filter_append]

theorem mem_of_mem_timersFor {key : Nat} {ts : List TimerRec} {t : TimerRec}
    (h : t ∈ timersFor key ts) : t ∈ ts :=
  List.mem_of_mem_filter h

theorem key_of_mem_timersFor {key : Nat} {ts : List TimerRec} {t : TimerRec}
    (h : t ∈ timersFor key ts) : t.key = key := by
  have := List.of_mem_filter h
  simpa using this

theorem mem_timersFor_of_mem {key : Nat} {ts : List TimerRec} {t : TimerRec}
    (h : t ∈ ts) (hk : t.key = key) : t ∈ timersFor key ts := by
  apply List.mem_filter.mpr
  simp [h, hk]

/-- Cancelling the timer owned by the session stored at `key` leaves no
pending timer for `key`. -/
theorem timersFor_clear_self {st : SvcState} (inv : SvcInv st) {key : Nat} {s : SessionType}
    (hs : mapGet key st.sessions = some s) :
    timersFor key (st.timers.filter (fun t => t.id ≠ s.timer)) = [] := by
  obtain ⟨fa, hfa⟩ := inv.sessTimer key s hs
  rw [timersFor_filter_swap, hfa]
  simp [List.filter_cons]

/-- Cancelling the timer owned by the session stored at `key` does not
touch the pending timers of any other key. -/
theorem timersFor_clear_other {st : SvcState} (inv : SvcInv st) {key key₂ : Nat}
    {s : SessionType} (hs : mapGet key st.sessions = some s) (hne : key₂ ≠ key) :
    timersFor key₂ (st.timers.filter (fun t => t.id ≠ s.timer)) = timersFor key₂ st.timers := by
  obtain ⟨fa, hfa⟩ := inv.sessTimer key s hs
  have hrecmem : (⟨s.timer, key, fa⟩ : TimerRec) ∈ st.timers := by
    have hmem : (⟨s.timer, key, fa⟩ : TimerRec) ∈ timersFor key st.timers := by
      rw [hfa]; exact List.mem_singleton.mpr rfl
    exact mem_of_mem_timersFor hmem
  rw [timersFor_filter_swap]
  apply List.filter_eq_self.mpr
  intro u hu
  have humem : u ∈ st.timers := mem_of_mem_timersFor hu
  have hukey : u.key = key₂ := key_of_mem_timersFor hu
  have : u.id ≠ s.timer := by
    intro hid
    have := timer_id_inj inv.timerIdsNodup humem hrecmem hid
    rw [this] at hukey
    exact hne hukey.symm
  simpa using this

theorem svcDelete_sessions (key : Nat) (st : SvcState) :
    (svcDelete key st).sessions = mapDel key st.sessions := by
  cases h : mapGet key st.sessions <;> simp [svcDelete, h]

theorem svcDelete_nextTimerId (key : Nat) (st : SvcState) :
    (svcDelete key st).nextTimerId = st.nextTimerId := by
  cases h : mapGet key st.sessions <;> simp [svcDelete, h]

theorem svcDelete_now (key : Nat) (st : SvcState) :
    (svcDelete key st).now = st.now := by
  cases h : mapGet key st.sessions <;> simp [svcDelete, h]

theorem svcDelete_timers_some {key : Nat} {st : SvcState} {s : SessionType}
    (h : mapGet key st.sessions = some s) :
    (svcDelete key st).timers = st.timers.filter (fun t => t.id ≠ s.timer) := by
  simp [svcDelete, h]

theorem svcDelete_timers_none {key : Nat} {st : SvcState}
    (h : mapGet key st.sessions = none) : (svcDelete key st).timers = st.timers := by
  simp [svcDelete, h]

theorem svcInv_delete {st : SvcState} (inv : SvcInv st) (key : Nat) :
    SvcInv (svcDelete key st) := by
  have hget : ∀ key₂, key₂ ≠ key →
      mapGet key₂ (svcDelete key st).sessions = mapGet key₂ st.sessions := by
    intro key₂ hne
    rw [svcDelete_sessions]
    exact mapGet_del_ne _ hne
  have hgetself : mapGet key (svcDelete key st).sessions = none := by
    rw [svcDelete_sessions]
    exact mapGet_del_self key _ inv.keysNodup
  cases h : mapGet key st.sessions with
  | none =>
    refine ⟨?_, ?_, ?_, ?_, ?_⟩
    · rw [svcDelete_sessions]; exact keys_nodup_del key _ inv.keysNodup
    · rw [svcDelete_timers_none h]; exact inv.timerIdsNodup
    · rw [svcDelete_timers_none h, svcDelete_nextTimerId]; exact inv.idsLt
    · intro key₂ s₂ hs₂
      rw [svcDelete_timers_none h]
      by_cases hne : key₂ = key
      · subst hne; rw [hgetself] at hs₂; exact absurd hs₂ (by simp)
      · rw [hget key₂ hne] at hs₂
        exact inv.sessTimer key₂ s₂ hs₂
    · intro key₂ hs₂
      rw [svcDelete_timers_none h]
      by_cases hne : key₂ = key
      · subst hne; exact inv.noSessNoTimer _ h
      · rw [hget key₂ hne] at hs₂
        exact inv.noSessNoTimer _ hs₂
  | some s =>
    refine ⟨?_, ?_, ?_, ?_, ?_⟩
    · rw [svcDelete_sessions]; exact keys_nodup_del key _ inv.keysNodup
    · rw [svcDelete_timers_some h]
      exact inv.timerIdsNodup.sublist ((List.filter_sublist _).map TimerRec.id)
    · rw [svcDelete_timers_some h, svcDelete_nextTimerId]
      intro t ht
      exact inv.idsLt t (List.mem_of_mem_filter ht)
    · intro key₂ s₂ hs₂
      by_cases hne : key₂ = key
      · subst hne; rw [hgetself] at hs₂; exact absurd hs₂ (by simp)
      · rw [hget key₂ hne] at hs₂
        obtain ⟨fa, hfa⟩ := inv.sessTimer key₂ s₂ hs₂
        refine ⟨fa, ?_⟩
        rw [svcDelete_timers_some h, timersFor_clear_other inv h hne, hfa]
    · intro key₂ hs₂
      rw [svcDelete_timers_some h]
      by_cases hne : key₂ = key
      · subst hne; exact timersFor_clear_self inv h
      · rw [hget key₂ hne] at hs₂
        rw [timersFor_filter_swap, inv.noSessNoTimer _ hs₂]
        simp

theorem nodup_ids_append_fresh {ts : List TimerRec} {t : TimerRec} {n : Nat}
    (h : (ts.map TimerRec.id).Nodup) (hlt : ∀ u ∈ ts, u.id < n) (ht : t.id = n) :
    ((ts ++ [t]).map TimerRec.id).Nodup := by
  rw [List.map_append, List.nodup_append]
  refine ⟨h, by simp, ?_⟩
  intro x hx
  simp only [List.mem_map] at hx
  obtain ⟨u, hu, hux⟩ := hx
  have := hlt u hu
  simp only [List.map_cons, List.map_nil, List.mem_singleton]
  omega

theorem svcInv_create {st : SvcState} (inv : SvcInv st) (key : Nat) (p : SessionPatch) :
    SvcInv (svcCreate key p st) := by
  have invD := svcInv_delete inv key
  have hnone : mapGet key (svcDelete key st).sessions = none := by
    rw [svcDelete_sessions]
    exact mapGet_del_self key _ inv.keysNodup
  have hDtimers : timersFor key (svcDelete key st).timers = [] :=
    invD.noSessNoTimer key hnone
  refine ⟨?_, ?_, ?_, ?_, ?_⟩
  · exact keys_nodup_set _ _ _ invD.keysNodup
  · exact nodup_ids_append_fresh invD.timerIdsNodup invD.idsLt rfl
  · intro t ht
    simp only [svcCreate, List.mem_append, List.mem_singleton] at ht ⊢
    rcases ht with ht | ht
    · have := invD.idsLt t ht
      simp only [svcDelete_nextTimerId] at this ⊢
      omega
    · subst ht
      simp [svcDelete_nextTimerId]
  · intro key₂ s₂ hs₂
    simp only [svcCreate] at hs₂ ⊢
    by_cases hne : key₂ = key
    · subst hne
      rw [mapGet_set_self] at hs₂
      refine ⟨(svcDelete key₂ st).now + DIALOG_TIMEOUT, ?_⟩
      rw [timersFor_append, hDtimers]
      obtain rfl := Option.some.inj hs₂
      simp [timersFor]
    · rw [mapGet_set_ne _ _ hne] at hs₂
      obtain ⟨fa, hfa⟩ := invD.sessTimer key₂ s₂ hs₂
      refine ⟨fa, ?_⟩
      rw [timersFor_append, hfa]
      have hni : key ≠ key₂ := fun h₁ => hne h₁.symm
      simp [timersFor, hni]
  · intro key₂ hs₂
    simp only [svcCreate] at hs₂ ⊢
    by_cases hne : key₂ = key
    · subst hne
      rw [mapGet_set_self] at hs₂
      exact absurd hs₂ (by simp)
    · rw [mapGet_set_ne _ _ hne] at hs₂
      rw [timersFor_append, invD.noSessNoTimer _ hs₂]
      have hni : key ≠ key₂ := fun h₁ => hne h₁.symm
      simp [timersFor, hni]

theorem svcInv_update {st : SvcState} (inv : SvcInv st) (key : Nat) (p : SessionPatch) :
    SvcInv (svcUpdate key p st) := by
  cases h : mapGet key st.sessions with
  | none => simpa [svcUpdate, h] using inv
  | some cur =>
    have hTself : timersFor key (st.timers.filter (fun t => t.id ≠ cur.timer)) = [] :=
      timersFor_clear_self inv h
    have hfilterNodup :
        ((st.timers.filter (fun t => t.id ≠ cur.timer)).map TimerRec.id).Nodup :=
      inv.timerIdsNodup.sublist ((List.filter_sublist _).map TimerRec.id)
    have hfilterLt : ∀ u ∈ st.timers.filter (fun t => t.id ≠ cur.timer),
        u.id < st.nextTimerId := fun u hu => inv.idsLt u (List.mem_of_mem_filter hu)
    refine ⟨?_, ?_, ?_, ?_, ?_⟩
    · simp only [svcUpdate, h]
      exact keys_nodup_set _ _ _ inv.keysNodup
    · simp only [svcUpdate, h]
      exact nodup_ids_append_fresh hfilterNodup hfilterLt rfl
    · intro t ht
      simp only [svcUpdate, h, List.mem_append, List.mem_singleton] at ht ⊢
      rcases ht with ht | ht
      · have := hfilterLt t ht
        omega
      · subst ht
        simp
    · intro key₂ s₂ hs₂
      simp only [svcUpdate, h] at hs₂ ⊢
      by_cases hne : key₂ = key
      · subst hne
        rw [mapGet_set_self] at hs₂
        refine ⟨st.now + DIALOG_TIMEOUT, ?_⟩
        rw [timersFor_append, hTself]
        obtain rfl := Option.some.inj hs₂
        simp [timersFor]
      · rw [mapGet_set_ne _ _ hne] at hs₂
        obtain ⟨fa, hfa⟩ := inv.sessTimer key₂ s₂ hs₂
        refine ⟨fa, ?_⟩
        rw [timersFor_append, timersFor_clear_other inv h hne, hfa]
        have hni : key ≠ key₂ := fun h₁ => hne h₁.symm
        simp [timersFor, hni]
    · intro key₂ hs₂
      simp only [svcUpdate, h] at hs₂ ⊢
      by_cases hne : key₂ = key
      · subst hne
        rw [mapGet_set_self] at hs₂
        exact absurd hs₂ (by simp)
      · rw [mapGet_set_ne _ _ hne] at hs₂
        rw [timersFor_append, timersFor_clear_other inv h hne, inv.noSessNoTimer _ hs₂]
        have hni : key ≠ key₂ := fun h₁ => hne h₁.symm
        simp [timersFor, hni]

/-- Under the invariant, a pending timer can only belong to the session
stored at its key, so firing it coincides with `delete` of that key. -/
theorem svcTimerFire_eq_delete {st : SvcState} (inv : SvcInv st) {t : TimerRec}
    (ht : t ∈ st.timers) : svcTimerFire t st = svcDelete t.key st := by
  have htf : t ∈ timersFor t.key st.timers := mem_timersFor_of_mem ht rfl
  cases h : mapGet t.key st.sessions with
  | none =>
    rw [inv.noSessNoTimer _ h] at htf
    exact absurd htf (by simp)
  | some s =>
    obtain ⟨fa, hfa⟩ := inv.sessTimer t.key s h
    rw [hfa] at htf
    have heq := List.mem_singleton.mp htf
    have hid : t.id = s.timer := by rw [heq]
    show svcDelete t.key { st with timers := st.timers.filter (fun u => u.id ≠ t.id) } =
      svcDelete t.key st
    have hget : mapGet t.key
        ({ st with timers := st.timers.filter (fun u => u.id ≠ t.id) } : SvcState).sessions =
        some s := h
    simp only [svcDelete, hget, h]
    rw [List.filter_filter, hid]
    refine congrArg (fun ts => SvcState.mk (mapDel t.key st.sessions) ts st.nextTimerId st.now) ?_
    apply List.filter_congr
    intro u hu
    simp

theorem svcReachable_inv {st : SvcState} (h : SvcReachable st) : SvcInv st := by
  induction h with
  | init =>
    refine ⟨by simp, by simp, ?_, ?_, ?_⟩
    · intro t ht
      exact absurd ht (by simp)
    · intro key s hs
      exact absurd hs (by simp [mapGet])
    · intro key _
      simp [timersFor]
  | create key p _ ih => exact svcInv_create ih key p
  | update key p _ ih => exact svcInv_update ih key p
  | del key _ ih => exact svcInv_delete ih key
  | fire t htm hle _ ih =>
    rw [svcTimerFire_eq_delete ih htm]
    exact svcInv_delete ih _
  | tick d hd _ ih =>
    exact ⟨ih.keysNodup, ih.timerIdsNodup, ih.idsLt, ih.sessTimer, ih.noSessNoTimer⟩

theorem countKey_pos_of_get {α : Type} {k : Nat} {l : List (Nat × α)} {v : α}
    (h : mapGet k l = some v) : 1 ≤ countKey k l := by
  induction l with
  | nil => simp [mapGet] at h
  | cons hd tl ih =>
    obtain ⟨k₁, v₁⟩ := hd
    by_cases h₁ : k₁ = k
    · simp [countKey, List.filter_cons, h₁]
    · simp only [mapGet, h₁, if_false] at h
      have := ih h
      simpa [countKey, List.filter_cons, h₁] using this

/-- C3: on any reachable `SessionService` state, every key has at most one
stored session; `create(k)` over an existing session for `k` leaves exactly
one session record for `k`, the old session's timer is no longer pending
anywhere (so it can never fire against the replacement), and exactly one
timer for `k` is pending — the freshly scheduled one. -/
theorem claim_create_replaces_session_and_cancels_timer
    (st : SvcState) (hr : SvcReachable st) (key : Nat) (p : SessionPatch)
    (s₀ : SessionType) (hs : mapGet key st.sessions = some s₀) :
    (∀ k, countKey k st.sessions ≤ 1) ∧
    countKey key (svcCreate key p st).sessions = 1 ∧
    (∀ t ∈ (svcCreate key p st).timers, t.id ≠ s₀.timer) ∧
    timersFor key (svcCreate key p st).timers =
      [⟨st.nextTimerId, key, st.now + DIALOG_TIMEOUT⟩] := by
  have inv := svcReachable_inv hr
  have invC := svcInv_create inv key p
  have hDget : mapGet key (svcDelete key st).sessions = none := by
    rw [svcDelete_sessions]
    exact mapGet_del_self key _ inv.keysNodup
  have hDtimers : (svcDelete key st).timers = st.timers.filter (fun t => t.id ≠ s₀.timer) :=
    svcDelete_timers_some hs
  have hDfor : timersFor key (svcDelete key st).timers = [] :=
    (svcInv_delete inv key).noSessNoTimer key hDget
  have hOldLt : s₀.timer < st.nextTimerId := by
    obtain ⟨fa, hfa⟩ := inv.sessTimer key s₀ hs
    have : (⟨s₀.timer, key, fa⟩ : TimerRec) ∈ st.timers := by
      have hmem : (⟨s₀.timer, key, fa⟩ : TimerRec) ∈ timersFor key st.timers := by
        rw [hfa]
        exact List.mem_singleton.mpr rfl
      exact mem_of_mem_timersFor hmem
    exact inv.idsLt _ this
  refine ⟨?_, ?_, ?_, ?_⟩
  · intro k
    exact countKey_le_one_of_nodup k _ inv.keysNodup
  · have hget₁ : (mapGet key (svcCreate key p st).sessions).isSome := by
      simp [svcCreate, mapGet_set_self]
    have hle := countKey_le_one_of_nodup key _ invC.keysNodup
    obtain ⟨v, hv⟩ := Option.isSome_iff_exists.mp hget₁
    have := countKey_pos_of_get hv
    omega
  · intro t ht
    simp only [svcCreate, List.mem_append, List.mem_singleton] at ht
    rcases ht with ht | ht
    · rw [hDtimers] at ht
      have := List.of_mem_filter ht
      simpa using this
    · subst ht
      simp only [svcDelete_nextTimerId]
      omega
  · show timersFor key ((svcDelete key st).timers ++
      [⟨(svcDelete key st).nextTimerId, key, (svcDelete key st).now + DIALOG_TIMEOUT⟩]) = _
    rw [timersFor_append, hDfor, svcDelete_nextTimerId, svcDelete_now]
    simp [timersFor]

/-- C3 witness: a concrete run — create a session for key 1, then create
again over it; the state after the first create is reachable and all
conclusions hold there. -/
theorem claim_create_replaces_session_and_cancels_timer_witness :
    countKey 1 (svcCreate 1 {} (svcCreate 1 {} ⟨[], [], 0, 0⟩)).sessions = 1 ∧
    (∀ t ∈ (svcCreate 1 {} (svcCreate 1 {} ⟨[], [], 0, 0⟩)).timers, t.id ≠ 0) ∧
    timersFor 1 (svcCreate 1 {} (svcCreate 1 {} ⟨[], [], 0, 0⟩)).timers =
      [⟨1, 1, DIALOG_TIMEOUT⟩] := by
  have hr : SvcReachable (svcCreate 1 {} ⟨[], [], 0, 0⟩) :=
    SvcReachable.create 1 {} SvcReachable.init
  have hs : mapGet 1 (svcCreate 1 {} (⟨[], [], 0, 0⟩ : SvcState)).sessions =
      some ⟨"initial", none, ["/cancel"], [], 0, some "Завершите текущий этап диалога"⟩ := by
    decide
  have h := claim_create_replaces_session_and_cancels_timer
    (svcCreate 1 {} ⟨[], [], 0, 0⟩) hr 1 {}
    ⟨"initial", none, ["/cancel"], [], 0, some "Завершите текущий этап диалога"⟩ hs
  refine ⟨h.2.1, fun t ht => h.2.2.1 t ht, ?_⟩
  have h₄ := h.2.2.2
  rw [h₄]
  decide

/-- C4: on any reachable `SessionService` state with a session stored for
`key`, `update(key, partial)` keeps the session and replaces its pending
timer with exactly one fresh timer whose deadline is the full
`DIALOG_TIMEOUT` measured from the clock at the moment of the update
(`st.now`), not from the session's creation; the previously pending timer
id is gone. -/
theorem claim_update_reschedules_full_timeout
    (st : SvcState) (hr : SvcReachable st) (key : Nat) (p : SessionPatch)
    (s₀ : SessionType) (hs : mapGet key st.sessions = some s₀) :
    timersFor key (svcUpdate key p st).timers =
      [⟨st.nextTimerId, key, st.now + DIALOG_TIMEOUT⟩] ∧
    (mapGet key (svcUpdate key p st).sessions).isSome ∧
    (∀ t ∈ (svcUpdate key p st).timers, t.id ≠ s₀.timer) := by
  have inv := svcReachable_inv hr
  have hTself : timersFor key (st.timers.filter (fun t => t.id ≠ s₀.timer)) = [] :=
    timersFor_clear_self inv hs
  have hOldLt : s₀.timer < st.nextTimerId := by
    obtain ⟨fa, hfa⟩ := inv.sessTimer key s₀ hs
    have : (⟨s₀.timer, key, fa⟩ : TimerRec) ∈ st.timers := by
      have hmem : (⟨s₀.timer, key, fa⟩ : TimerRec) ∈ timersFor key st.timers := by
        rw [hfa]
        exact List.mem_singleton.mpr rfl
      exact mem_of_mem_timersFor hmem
    exact inv.idsLt _ this
  refine ⟨?_, ?_, ?_⟩
  · simp only [svcUpdate, hs]
    rw [timersFor_append, hTself]
    simp [timersFor]
  · simp [svcUpdate, hs, mapGet_set_self]
  · intro t ht
    simp only [svcUpdate, hs, List.mem_append, List.mem_singleton] at ht
    rcases ht with ht | ht
    · have := List.of_mem_filter ht
      simpa using this
    · subst ht
      simp only
      omega

/-- C4 witness: update over a freshly created session (after the clock
advanced by 1000 ms) schedules the new deadline from the update time. -/
theorem claim_update_reschedules_full_timeout_witness :
    timersFor 1 (svcUpdate 1 {} (svcTick 1000 (svcCreate 1 {} ⟨[], [], 0, 0⟩))).timers =
      [⟨1, 1, 1000 + DIALOG_TIMEOUT⟩] ∧
    (mapGet 1 (svcUpdate 1 {} (svcTick 1000 (svcCreate 1 {} ⟨[], [], 0, 0⟩))).sessions).isSome ∧
    (∀ t ∈ (svcUpdate 1 {} (svcTick 1000 (svcCreate 1 {} ⟨[], [], 0, 0⟩))).timers, t.id ≠ 0) := by
  have hr : SvcReachable (svcTick 1000 (svcCreate 1 {} ⟨[], [], 0, 0⟩)) :=
    SvcReachable.tick 1000 (by omega) (SvcReachable.create 1 {} SvcReachable.init)
  have hs : mapGet 1 (svcTick 1000 (svcCreate 1 {} (⟨[], [], 0, 0⟩ : SvcState))).sessions =
      some ⟨"initial", none, ["/cancel"], [], 0, some "Завершите текущий этап диалога"⟩ := by
    decide
  have h := claim_update_reschedules_full_timeout
    (svcTick 1000 (svcCreate 1 {} ⟨[], [], 0, 0⟩)) hr 1 {}
    ⟨"initial", none, ["/cancel"], [], 0, some "Завершите текущий этап диалога"⟩ hs
  refine ⟨?_, h.2.1, fun t ht => h.2.2 t ht⟩
  have h₁ := h.1
  rw [h₁]
  decide

/-- C7: the permission gate blocks any action outside the allow-list of
the active session's state.  (a) Any state not in the permission table
falls back to `{allowedCommands := [/cancel], allowedCallbacks := []}`;
a session created without explicit permission overrides carries exactly
the table row of its state.  (b) A callback payload outside the session's
allow-list is consumed with the "finish your current step" message built
around the step description, and the store is unchanged.  (c) A command
outside the allow-list likewise.  The blocking messages contain the step
description verbatim by construction. -/
theorem claim_dialog_blocker_gate :
    (∀ s : String, s ≠ "awaiting_itemName" → s ≠ "waiting_courier_reply" →
      s ≠ "awaiting_photo_from_courier" →
      getPermissionsByState s = ⟨["/cancel"], []⟩) ∧
    (∀ (key : Nat) (p : SessionPatch) (st : SvcState), p.allowedCommands = none →
      p.allowedCallbacks = none →
      ∃ session, mapGet key (svcCreate key p st).sessions = some session ∧
        session.allowedCommands =
          (getPermissionsByState (jsOrString p.state "initial")).allowedCommands ∧
        session.allowedCallbacks =
          (getPermissionsByState (jsOrString p.state "initial")).allowedCallbacks) ∧
    (∀ (ctx : BlockerCtx) (st : SvcState) (userId : Nat) (session : SessionType)
        (payload : String),
      ctx.userId = some userId →
      mapGet userId st.sessions = some session →
      ctx.callbackPayload = some payload →
      payload ≠ "" →
      payload ∉ session.allowedCallbacks →
      dialogBlockerUse ctx st =
        (st, .blocked (blockedCallbackMessage
          (jsOrString session.stepDescription "Завершите текущий этап диалога")))) ∧
    (∀ (ctx : BlockerCtx) (st : SvcState) (userId : Nat) (session : SessionType)
        (messageText : String),
      ctx.userId = some userId →
      mapGet userId st.sessions = some session →
      ctx.callbackPayload = none →
      ctx.messageText = some messageText →
      messageText ≠ "" →
      messageText.startsWith "/" = true →
      commandToken messageText ∉ session.allowedCommands →
      dialogBlockerUse ctx st =
        (st, .blocked (blockedCommandMessage
          (jsOrString session.stepDescription "Завершите текущий этап диалога")))) := by
  refine ⟨?_, ?_, ?_, ?_⟩
  · intro s h₁ h₂ h₃
    simp [getPermissionsByState, h₁, h₂, h₃]
  · intro key p st hcmd hcb
    have hget : mapGet key (svcCreate key p st).sessions = some
        { state := jsOrString p.state "initial"
          orderId := p.orderId
          allowedCommands := p.allowedCommands.getD
            (getPermissionsByState (jsOrString p.state "initial")).allowedCommands
          allowedCallbacks := p.allowedCallbacks.getD
            (getPermissionsByState (jsOrString p.state "initial")).allowedCallbacks
          timer := (svcDelete key st).nextTimerId
          stepDescription := some (jsOrString p.stepDescription
            (getDefaultStepDescription (jsOrString p.state "initial"))) } := by
      simp only [svcCreate]
      exact mapGet_set_self _ _ _
    exact ⟨_, hget, by simp [hcmd], by simp [hcb]⟩
  · intro ctx st userId session payload hu hs hp hne hnotin
    have hallowed : isCallbackAllowed session payload = false := by
      simp [isCallbackAllowed, hnotin]
    simp [dialogBlockerUse, hu, hs, hp, hne, hallowed]
  · intro ctx st userId session messageText hu hs hcb hm hne hstart hnotin
    have hallowed : isCommandAllowed session (commandToken messageText) = false := by
      simp [isCommandAllowed, hnotin]
    simp [dialogBlockerUse, hu, hs, hcb, dialogBlockerCommandCheck, hm, hne, hstart, hallowed]

/-- C7 witness: a stray `lowStock:...` callback during an active
`waiting_courier_reply` courier dialogue is blocked with the message
containing that state's step description, and the store is untouched. -/
theorem claim_dialog_blocker_gate_witness :
    getPermissionsByState "no_such_state" = ⟨["/cancel"], []⟩ ∧
    dialogBlockerUse ⟨some 5, some "lowStock:42", none⟩
        (svcCreate 5 { state := some "waiting_courier_reply" } ⟨[], [], 0, 0⟩) =
      (svcCreate 5 { state := some "waiting_courier_reply" } ⟨[], [], 0, 0⟩,
       .blocked (blockedCallbackMessage "Ожидание вашего комментария по заказу")) := by
  have h := claim_dialog_blocker_gate
  refine ⟨h.1 "no_such_state" (by decide) (by decide) (by decide), ?_⟩
  have hcall := h.2.2.1 ⟨some 5, some "lowStock:42", none⟩
    (svcCreate 5 { state := some "waiting_courier_reply" } ⟨[], [], 0, 0⟩) 5
    ⟨"waiting_courier_reply", none, ["/cancel"], ["photo_yes", "photo_no", "cancel"], 0,
      some "Ожидание вашего комментария по заказу"⟩
    "lowStock:42" rfl (by decide) rfl (by decide) (by decide)
  rw [hcall]
  decide

theorem mgrGet_delete_self (chatId : Nat) (store : MgrStore) :
    mgrGet chatId (mgrDelete chatId store) = none := by
  simp [mgrGet, mgrDelete]

theorem authMerge_attempts (session : AuthSession) (n : Nat) :
    authMerge session { attemptsCount := some n } =
      { session with attemptsCount := n } := by
  cases session
  simp [authMerge]

/-- C1 counterexample: the handler increments the attempt counter and
checks the 10-attempt limit *before* comparing the code, so submitting the
*correct* code as the 10th attempt deletes the session with the
"attempts exhausted" reply — no identity link is persisted and no success
reply is sent, contradicting the claim as stated. -/
theorem claim_code_success_counterexample :
    mgrGet 7 nineAttemptsWorld.store = some nineAttemptsSession ∧
    nineAttemptsSession.step = "awaiting_code" ∧
    nineAttemptsSession.matchedStaff = some demoStaff ∧
    isValidCodeInput "1234" = true ∧
    jsParseInt "1234" = some 1234 ∧
    nineAttemptsSession.code = some 1234 ∧
    (codeStepHandle ⟨some 42⟩ 7 "1234" nineAttemptsWorld).1.links = [] ∧
    AuthEff.reply (SUCCESS_AUTH demoStaff.lastName demoStaff.firstName) ∉
      (codeStepHandle ⟨some 42⟩ 7 "1234" nineAttemptsWorld).2 ∧
    AuthEff.reply ATTEMPTS_EXCEEDED ∈ (codeStepHandle ⟨some 42⟩ 7 "1234" nineAttemptsWorld).2 := by
  refine ⟨rfl, rfl, rfl, by decide, by decide, rfl, ?_, ?_, ?_⟩ <;> decide

/-- C1 (amended): submitting the stored 4-digit code on a session in
`awaiting_code` with a matched staff member persists the identity link,
sends the success reply and deletes the session in the same invocation —
provided the submission is not the 10th attempt (fewer than 9 failed
attempts recorded) and the sender's user id is present; re-submitting the
same code afterwards only yields the "no active session" reply and changes
nothing. -/
theorem claim_code_success_amended
    (w : AuthWorld) (ctx : MsgCtx) (chatId : Nat) (inputText : String)
    (session : AuthSession) (staff : Staff) (userId : Nat) (code : Int)
    (hs : mgrGet chatId w.store = some session)
    (_hstep : session.step = "awaiting_code")
    (hstaff : session.matchedStaff = some staff)
    (hvalid : isValidCodeInput inputText = true)
    (hparse : jsParseInt inputText = some code)
    (hmatch : session.code = some code)
    (hatt : session.attemptsCount + 1 < 10)
    (huid : ctx.userId = some userId) :
    (codeStepHandle ctx chatId inputText w).1.links = w.links ++ [(staff.id, userId)] ∧
    AuthEff.dbLink staff.id userId ∈ (codeStepHandle ctx chatId inputText w).2 ∧
    AuthEff.reply (SUCCESS_AUTH staff.lastName staff.firstName) ∈
      (codeStepHandle ctx chatId inputText w).2 ∧
    mgrGet chatId (codeStepHandle ctx chatId inputText w).1.store = none ∧
    codeStepHandle ctx chatId inputText (codeStepHandle ctx chatId inputText w).1 =
      ((codeStepHandle ctx chatId inputText w).1, [.reply SESSION_NOT_FOUND]) := by
  have h10 : ¬ (session.attemptsCount + 1 ≥ 10) := by omega
  have hupd : mgrUpdate chatId { attemptsCount := some (session.attemptsCount + 1) } w.store =
      (fun k => if k = chatId then
          some (authMerge session { attemptsCount := some (session.attemptsCount + 1) })
        else w.store k,
       [.logDebug ("[session_updated] chatId: " ++ toString chatId)]) := by
    have : w.store chatId = some session := hs
    simp [mgrUpdate, this]
  have hrun : codeStepHandle ctx chatId inputText w =
      ({ store := mgrDelete chatId
            (fun k => if k = chatId then
              some (authMerge session { attemptsCount := some (session.attemptsCount + 1) })
            else w.store k),
         links := w.links ++ [(staff.id, userId)] },
       [.logDebug ("[session_updated] chatId: " ++ toString chatId),
        .dbLink staff.id userId,
        .reply (SUCCESS_AUTH staff.lastName staff.firstName),
        .logInfo ("[auth_success] staffId: " ++ staff.id)]) := by
    simp [codeStepHandle, hs, hvalid, hparse, hstaff, hmatch, huid, h10, hupd]
  refine ⟨by rw [hrun], by rw [hrun]; simp, by rw [hrun]; simp, ?_, ?_⟩
  · rw [hrun]
    simp [mgrGet, mgrDelete]
  · have hgone : mgrGet chatId (codeStepHandle ctx chatId inputText w).1.store = none := by
      rw [hrun]
      simp [mgrGet, mgrDelete]
    generalize hW : (codeStepHandle ctx chatId inputText w).1 = w₁ at hgone ⊢
    simp [codeStepHandle, hgone]

/-- C1 witness: the amended claim at a concrete session, code `1234`. -/
theorem claim_code_success_amended_witness :
    (codeStepHandle ⟨some 42⟩ 7 "1234" freshCodeWorld).1.links =
      freshCodeWorld.links ++ [(demoStaff.id, 42)] ∧
    AuthEff.dbLink demoStaff.id 42 ∈ (codeStepHandle ⟨some 42⟩ 7 "1234" freshCodeWorld).2 ∧
    AuthEff.reply (SUCCESS_AUTH demoStaff.lastName demoStaff.firstName) ∈
      (codeStepHandle ⟨some 42⟩ 7 "1234" freshCodeWorld).2 ∧
    mgrGet 7 (codeStepHandle ⟨some 42⟩ 7 "1234" freshCodeWorld).1.store = none ∧
    codeStepHandle ⟨some 42⟩ 7 "1234" (codeStepHandle ⟨some 42⟩ 7 "1234" freshCodeWorld).1 =
      ((codeStepHandle ⟨some 42⟩ 7 "1234" freshCodeWorld).1, [.reply SESSION_NOT_FOUND]) :=
  claim_code_success_amended freshCodeWorld ⟨some 42⟩ 7 "1234" freshCodeSession demoStaff 42 1234
    rfl rfl rfl (by decide) (by decide) rfl (by decide) rfl

/-- C2: a syntactically valid 4-digit submission that does not match the
stored code increments `attemptsCount` by exactly one; below 10 the
session is kept (all other fields unchanged) and the user is told the
remaining attempts (`10 - attemptsCount`), on reaching 10 the session is
deleted with the attempts-exhausted reply; no identity link is written
either way. -/
theorem claim_code_wrong_attempts
    (w : AuthWorld) (ctx : MsgCtx) (chatId : Nat) (inputText : String)
    (session : AuthSession) (staff : Staff) (code : Int)
    (hs : mgrGet chatId w.store = some session)
    (_hstep : session.step = "awaiting_code")
    (hstaff : session.matchedStaff = some staff)
    (hvalid : isValidCodeInput inputText = true)
    (hparse : jsParseInt inputText = some code)
    (hwrong : session.code ≠ some code) :
    (session.attemptsCount + 1 < 10 →
      mgrGet chatId (codeStepHandle ctx chatId inputText w).1.store =
        some { session with attemptsCount := session.attemptsCount + 1 } ∧
      AuthEff.reply (ATTEMPT_FAILED (10 - (session.attemptsCount + 1))) ∈
        (codeStepHandle ctx chatId inputText w).2) ∧
    (session.attemptsCount + 1 ≥ 10 →
      mgrGet chatId (codeStepHandle ctx chatId inputText w).1.store = none ∧
      AuthEff.reply ATTEMPTS_EXCEEDED ∈ (codeStepHandle ctx chatId inputText w).2) ∧
    (codeStepHandle ctx chatId inputText w).1.links = w.links := by
  have hupd : mgrUpdate chatId { attemptsCount := some (session.attemptsCount + 1) } w.store =
      (fun k => if k = chatId then
          some (authMerge session { attemptsCount := some (session.attemptsCount + 1) })
        else w.store k,
       [.logDebug ("[session_updated] chatId: " ++ toString chatId)]) := by
    have : w.store chatId = some session := hs
    simp [mgrUpdate, this]
  refine ⟨?_, ?_, ?_⟩
  · intro hlt
    have h10 : ¬ (session.attemptsCount + 1 ≥ 10) := by omega
    have hrun : codeStepHandle ctx chatId inputText w =
        ({ store := fun k => if k = chatId then
              some (authMerge session { attemptsCount := some (session.attemptsCount + 1) })
            else w.store k,
           links := w.links },
         [.logDebug ("[session_updated] chatId: " ++ toString chatId),
          .reply (ATTEMPT_FAILED (10 - (session.attemptsCount + 1))),
          .logInfo ("[code_mismatch] chatId: " ++ toString chatId)]) := by
      simp [codeStepHandle, hs, hvalid, hparse, hstaff, hwrong, h10, hupd]
    rw [hrun]
    constructor
    · simp [mgrGet, authMerge_attempts]
    · simp
  · intro hge
    have hrun : codeStepHandle ctx chatId inputText w =
        ({ store := mgrDelete chatId
              (fun k => if k = chatId then
                some (authMerge session { attemptsCount := some (session.attemptsCount + 1) })
              else w.store k),
           links := w.links },
         [.logDebug ("[session_updated] chatId: " ++ toString chatId),
          .reply ATTEMPTS_EXCEEDED,
          .logInfo ("[attempts_exceeded] chatId: " ++ toString chatId)]) := by
      simp [codeStepHandle, hs, hvalid, hparse, hstaff, hge, hupd]
    rw [hrun]
    exact ⟨by simp [mgrGet, mgrDelete], by simp⟩
  · by_cases hge : session.attemptsCount + 1 ≥ 10
    · simp [codeStepHandle, hs, hvalid, hparse, hstaff, hge, hupd]
    · simp [codeStepHandle, hs, hvalid, hparse, hstaff, hwrong, hge, hupd]

/-- C2 witness: a wrong code (`9999` against stored `1234`) on a fresh
session keeps the session with `attemptsCount = 1` and replies with 9
remaining attempts. -/
theorem claim_code_wrong_attempts_witness :
    (0 + 1 < 10 ∧
      mgrGet 7 (codeStepHandle ⟨some 42⟩ 7 "9999" freshCodeWorld).1.store =
        some { freshCodeSession with attemptsCount := freshCodeSession.attemptsCount + 1 } ∧
      AuthEff.reply (ATTEMPT_FAILED (10 - (freshCodeSession.attemptsCount + 1))) ∈
        (codeStepHandle ⟨some 42⟩ 7 "9999" freshCodeWorld).2) ∧
    (codeStepHandle ⟨some 42⟩ 7 "9999" freshCodeWorld).1.links = freshCodeWorld.links := by
  have h := claim_code_wrong_attempts freshCodeWorld ⟨some 42⟩ 7 "9999" freshCodeSession
    demoStaff 9999 rfl rfl rfl (by decide) (by decide) (by decide)
  exact ⟨⟨by omega, h.1 (by decide)⟩, h.2.2⟩

/-- C5: `SessionManagerService.update` on an absent key leaves the store
exactly unchanged (in particular no session is created for the key) and
emits the `[session_not_found]` warning log. -/
theorem claim_update_absent_noop (chatId : Nat) (p : AuthSessionPatch) (store : MgrStore)
    (h : mgrGet chatId store = none) :
    (mgrUpdate chatId p store).1 = store ∧
    (mgrUpdate chatId p store).2 =
      [.logWarn ("[session_not_found] chatId: " ++ toString chatId ++ " для обновления")] ∧
    mgrGet chatId (mgrUpdate chatId p store).1 = none := by
  have h₁ : store chatId = none := h
  refine ⟨?_, ?_, ?_⟩ <;> simp [mgrUpdate, h₁, mgrGet]

/-- C5 witness: an update queued against key 7 after its session was
deleted (e.g. by timeout) is a no-op with the warning log. -/
theorem claim_update_absent_noop_witness :
    (mgrUpdate 7 { attemptsCount := some 1 } (mgrDelete 7 freshCodeWorld.store)).1 =
      mgrDelete 7 freshCodeWorld.store ∧
    (mgrUpdate 7 { attemptsCount := some 1 } (mgrDelete 7 freshCodeWorld.store)).2 =
      [.logWarn ("[session_not_found] chatId: " ++ toString 7 ++ " для обновления")] ∧
    mgrGet 7 (mgrUpdate 7 { attemptsCount := some 1 } (mgrDelete 7 freshCodeWorld.store)).1 =
      none :=
  claim_update_absent_noop 7 { attemptsCount := some 1 } (mgrDelete 7 freshCodeWorld.store)
    (mgrGet_delete_self 7 freshCodeWorld.store)

/-- C6: `/resend_code` triggers an SMS send only when the session exists
in step `awaiting_code`, the 5-minute anti-spam window since
`lastResendRequestAt` has elapsed and the 30-minute cooldown since
`lastSmsSentAt` has elapsed (so in particular a request inside the
anti-spam window never sends); and when all gates pass and the provider
reports success the stored session has `attemptsCount` reset to 0, the
fresh code, and both timestamps set to the request time. -/
theorem claim_resend_code_gating (env : ResendEnv) (chatId : Nat) (store : MgrStore) :
    ((∃ ph m, AuthEff.smsSend ph m ∈ (handleResendCode env (some chatId) store).2) →
      ∃ session, mgrGet chatId store = some session ∧
        session.step = "awaiting_code" ∧
        RESEND_CODE_SPAM_LIMIT ≤ env.now - session.lastResendRequestAt.getD 0 ∧
        SMS_RESEND_COOLDOWN ≤ env.now - session.lastSmsSentAt.getD 0) ∧
    (∀ session, mgrGet chatId store = some session →
      session.step = "awaiting_code" →
      RESEND_CODE_SPAM_LIMIT ≤ env.now - session.lastResendRequestAt.getD 0 →
      SMS_RESEND_COOLDOWN ≤ env.now - session.lastSmsSentAt.getD 0 →
      (∃ m, AuthEff.smsSend (session.phone.getD "") m ∈
        (handleResendCode env (some chatId) store).2) ∧
      (env.smsOk = true →
        ∃ s₂, mgrGet chatId (handleResendCode env (some chatId) store).1 = some s₂ ∧
          s₂.attemptsCount = 0 ∧ s₂.code = some env.newCode ∧
          s₂.lastSmsSentAt = some env.now ∧ s₂.lastResendRequestAt = some env.now)) := by
  constructor
  · intro hex
    cases hget : mgrGet chatId store with
    | none =>
      simp [handleResendCode, hget] at hex
    | some session =>
      refine ⟨session, rfl, ?_⟩
      by_cases hstep : session.step = "awaiting_code"
      · by_cases hspam : env.now - session.lastResendRequestAt.getD 0 < RESEND_CODE_SPAM_LIMIT
        · simp [handleResendCode, hget, hstep, hspam] at hex
        · by_cases hcool : env.now - session.lastSmsSentAt.getD 0 < SMS_RESEND_COOLDOWN
          · simp [handleResendCode, hget, hstep, hspam, hcool] at hex
          · exact ⟨hstep, by omega, by omega⟩
      · simp [handleResendCode, hget, hstep] at hex
  · intro session hget hstep hspam hcool
    have hspam₁ : ¬ (env.now - session.lastResendRequestAt.getD 0 < RESEND_CODE_SPAM_LIMIT) := by
      omega
    have hcool₁ : ¬ (env.now - session.lastSmsSentAt.getD 0 < SMS_RESEND_COOLDOWN) := by
      omega
    have hstore : store chatId = some session := hget
    constructor
    · refine ⟨"Код авторизации на сайте Dodo-sky: " ++ toString env.newCode, ?_⟩
      cases henv : env.smsOk <;>
        simp [handleResendCode, hget, hstep, hspam₁, hcool₁, sendAuthCode, mgrUpdate, hstore,
          henv]
    · intro hok
      refine ⟨authMerge (authMerge session { lastResendRequestAt := some env.now })
        { code := some env.newCode, lastSmsSentAt := some env.now, attemptsCount := some 0 },
        ?_, by simp [authMerge], by simp [authMerge], by simp [authMerge], by simp [authMerge]⟩
      simp [handleResendCode, hget, hstep, hspam₁, hcool₁, sendAuthCode, mgrUpdate, hstore,
        hok, mgrGet]

/-- C6 witness: a resend at `now = 2 000 000` ms (past both windows) sends
an SMS to the stored phone and resets `attemptsCount` to 0 with the fresh
code. -/
theorem claim_resend_code_gating_witness :
    (∃ m, AuthEff.smsSend (resendSession.phone.getD "") m ∈
      (handleResendCode ⟨2000000, 5678, true⟩ (some 7) resendStore).2) ∧
    (∃ s₂, mgrGet 7 (handleResendCode ⟨2000000, 5678, true⟩ (some 7) resendStore).1 = some s₂ ∧
      s₂.attemptsCount = 0 ∧ s₂.code = some 5678 ∧
      s₂.lastSmsSentAt = some 2000000 ∧ s₂.lastResendRequestAt = some 2000000) := by
  have h := (claim_resend_code_gating ⟨2000000, 5678, true⟩ 7 resendStore).2 resendSession
    rfl rfl (by decide) (by decide)
  exact ⟨h.1, h.2 rfl⟩

/-- C8: whatever the dispatched step handler does, if it throws the
orchestrator still returns normally (the event is consumed, never
propagating the exception), appends the generic error reply after the
handler's effects, and deletes the session of that chat. -/
theorem claim_orchestrator_catches_step_errors
    (hPhone hFullname hCode : StepFn) (ctx : MsgCtx) (msg : InboundMsg) (w : AuthWorld)
    (chatId : Nat) (session : AuthSession) (inputText : String)
    (w₁ : AuthWorld) (fx : List AuthEff) (e : String)
    (hchat : msg.chatId = some chatId)
    (hs : mgrGet chatId w.store = some session)
    (htext : trimmedText msg.text = some inputText)
    (hguard : ¬ (session.step = "awaiting_phone" ∧ ¬ isValidPhone inputText))
    (hdisp : dispatchStep hPhone hFullname hCode ctx chatId inputText w session.step =
      some (w₁, fx, some e)) :
    (handleMessage hPhone hFullname hCode ctx msg w).2.2 = .handled ∧
    mgrGet chatId (handleMessage hPhone hFullname hCode ctx msg w).1.store = none ∧
    (handleMessage hPhone hFullname hCode ctx msg w).2.1 =
      fx ++ [.logError ("Ошибка обработки сообщения: " ++ e),
        .reply "Произошла ошибка, попробуйте позже"] := by
  have hrun : handleMessage hPhone hFullname hCode ctx msg w =
      ({ w₁ with store := mgrDelete chatId w₁.store },
       fx ++ [.logError ("Ошибка обработки сообщения: " ++ e),
         .reply "Произошла ошибка, попробуйте позже"],
       .handled) := by
    simp only [handleMessage, hchat, hs, htext]
    rw [if_neg hguard]
    simp [hdisp]
  rw [hrun]
  exact ⟨rfl, mgrGet_delete_self _ _, rfl⟩

/-- C8 witness: a throwing code-step handler on a concrete
`awaiting_code` session — the orchestrator consumes the event, deletes
the session and sends the generic error reply. -/
theorem claim_orchestrator_catches_step_errors_witness :
    (handleMessage throwingStep throwingStep throwingStep ⟨some 42⟩ ⟨some 7, some "1234"⟩
      freshCodeWorld).2.2 = .handled ∧
    mgrGet 7 (handleMessage throwingStep throwingStep throwingStep ⟨some 42⟩
      ⟨some 7, some "1234"⟩ freshCodeWorld).1.store = none ∧
    (handleMessage throwingStep throwingStep throwingStep ⟨some 42⟩ ⟨some 7, some "1234"⟩
      freshCodeWorld).2.1 =
      [.logDebug "step entered"] ++
        [.logError ("Ошибка обработки сообщения: " ++ "boom"),
         .reply "Произошла ошибка, попробуйте позже"] :=
  claim_orchestrator_catches_step_errors throwingStep throwingStep throwingStep ⟨some 42⟩
    ⟨some 7, some "1234"⟩ freshCodeWorld 7 freshCodeSession "1234" freshCodeWorld
    [.logDebug "step entered"] "boom" rfl rfl (by decide) (by decide) rfl

theorem photoRecsFrom_filter_eq (orderId : String) (urls : List String) (i : Nat) :
    (photoRecsFrom orderId urls i).filter (fun p => p.orderId = orderId) =
      photoRecsFrom orderId urls i := by
  induction urls generalizing i with
  | nil => simp [photoRecsFrom]
  | cons u rest ih => simp [photoRecsFrom, List.filter_cons, ih]

theorem photoRecsFrom_orderId (orderId : String) (urls : List String) (i : Nat) :
    ∀ p ∈ photoRecsFrom orderId urls i, p.orderId = orderId := by
  induction urls generalizing i with
  | nil => simp [photoRecsFrom]
  | cons u rest ih =>
    intro p hp
    simp only [photoRecsFrom, List.mem_cons] at hp
    rcases hp with hp | hp
    · rw [hp]
    · exact ih (i + 1) p hp

theorem photoRecsFrom_filter_ne (orderId : String) (urls : List String) (i : Nat) :
    (photoRecsFrom orderId urls i).filter (fun p => p.orderId ≠ orderId) = [] := by
  rw [List.filter_eq_nil_iff]
  intro p hp
  simp [photoRecsFrom_orderId orderId urls i p hp]

theorem filter_ne_then_eq (orderId : String) (l : List PhotoRec) :
    (l.filter (fun p => p.orderId ≠ orderId)).filter (fun p => p.orderId = orderId) = [] := by
  induction l with
  | nil => simp
  | cons p rest ih =>
    by_cases h : p.orderId = orderId <;> simp [List.filter_cons, h, ih]

theorem filter_ne_idem (orderId : String) (l : List PhotoRec) :
    (l.filter (fun p => p.orderId ≠ orderId)).filter (fun p => p.orderId ≠ orderId) =
      l.filter (fun p => p.orderId ≠ orderId) := by
  induction l with
  | nil => simp
  | cons p rest ih =>
    by_cases h : p.orderId = orderId <;> simp [List.filter_cons, h, ih]

theorem photoRecsFrom_map_index (orderId : String) (urls : List String) (i : Nat) :
    (photoRecsFrom orderId urls i).map PhotoRec.index = List.range' (i + 1) urls.length := by
  induction urls generalizing i with
  | nil => simp [photoRecsFrom]
  | cons u rest ih =>
    simp only [photoRecsFrom, List.map_cons, List.length_cons, List.range'_succ, ih]

/-- C9: in the courier photo step, at most 3 image attachments are
accepted (extras discarded before upload), the uploaded photos are stored
with ordinal indices 1, 2, … and they *replace* every previously stored
photo row of the same order (rows of other orders are untouched); the
session ends.  A courier text reply longer than 400 characters is
rejected without recording anything. -/
theorem claim_courier_photos_and_text_cap
    (uploadOne : Attachment → Option String) (ctx : CourierCtx) (st : SvcState)
    (db : CourierDb) (userId : Nat) (session : SessionType) (orderId : String)
    (hr : SvcReachable st)
    (hu : ctx.userId = some userId)
    (hs : mapGet userId st.sessions = some session)
    (ho : session.orderId = some orderId)
    (hne : orderId ≠ "")
    (hstate : session.state = "awaiting_photo_from_courier")
    (himg : ((ctx.attachments.getD []).filter Attachment.isImage).isEmpty = false)
    (hurls : (uploadPhotos uploadOne
      (((ctx.attachments.getD []).filter Attachment.isImage).take 3)).isEmpty = false) :
    (let urls := uploadPhotos uploadOne
        (((ctx.attachments.getD []).filter Attachment.isImage).take 3)
     let r := finishDialogWithPhoto uploadOne ctx st db
     urls.length ≤ 3 ∧
     r.2.1.photos.filter (fun p => p.orderId = orderId) = photoRecsFrom orderId urls 0 ∧
     (photoRecsFrom orderId urls 0).map PhotoRec.index = List.range' 1 urls.length ∧
     r.2.1.photos.filter (fun p => p.orderId ≠ orderId) =
       db.photos.filter (fun p => p.orderId ≠ orderId) ∧
     mapGet userId r.1.sessions = none ∧
     r.2.2 = [PHOTO_SAVED_REPLY]) ∧
    (∀ (ctx₂ : CourierCtx) (orderId₂ : String) (db₂ : CourierDb) (comment : String),
      ctx₂.messageText = some comment → 400 < comment.length →
      courierReply ctx₂ orderId₂ db₂ = (db₂, [TEXT_REJECTED])) := by
  constructor
  · have hrun : finishDialogWithPhoto uploadOne ctx st db =
        (svcDelete userId st,
         savePhotoUrlsToDB (uploadPhotos uploadOne
           (((ctx.attachments.getD []).filter Attachment.isImage).take 3)) orderId db,
         [PHOTO_SAVED_REPLY]) := by
      simp [finishDialogWithPhoto, hu, hs, ho, hne, hstate, himg, hurls]
    refine ⟨?_, ?_, ?_, ?_, ?_, ?_⟩
    · calc (uploadPhotos uploadOne
            (((ctx.attachments.getD []).filter Attachment.isImage).take 3)).length
          ≤ (((ctx.attachments.getD []).filter Attachment.isImage).take 3).length :=
            List.length_filterMap_le _ _
        _ ≤ 3 := by simp [List.length_take]
    · rw [hrun]
      simp only [savePhotoUrlsToDB, List.filter_append]
      rw [filter_ne_then_eq, photoRecsFrom_filter_eq]
      simp
    · exact photoRecsFrom_map_index orderId _ 0
    · rw [hrun]
      simp only [savePhotoUrlsToDB, List.filter_append]
      rw [filter_ne_idem, photoRecsFrom_filter_ne]
      simp
    · rw [hrun]
      rw [svcDelete_sessions]
      exact mapGet_del_self userId st.sessions (svcReachable_inv hr).keysNodup
    · rw [hrun]
  · intro ctx₂ orderId₂ db₂ comment hm hlen
    have hne₂ : comment ≠ "" := by
      intro h
      rw [h] at hlen
      simp at hlen
    simp [courierReply, hm, hne₂, hlen]

/-- C9 witness: of four sent photos only three are stored, with indices
1–3, replacing the order's old row and keeping the other order's row; and
a 401-character text reply is rejected with the database untouched. -/
theorem claim_courier_photos_and_text_cap_witness :
    (let urls := uploadPhotos demoUpload
        (((demoCourierCtx.attachments.getD []).filter Attachment.isImage).take 3)
     let r := finishDialogWithPhoto demoUpload demoCourierCtx demoCourierSt demoCourierDb
     urls.length ≤ 3 ∧
     r.2.1.photos.filter (fun p => p.orderId = "ord-1") = photoRecsFrom "ord-1" urls 0 ∧
     (photoRecsFrom "ord-1" urls 0).map PhotoRec.index = List.range' 1 urls.length ∧
     r.2.1.photos.filter (fun p => p.orderId ≠ "ord-1") =
       demoCourierDb.photos.filter (fun p => p.orderId ≠ "ord-1") ∧
     mapGet 5 r.1.sessions = none ∧
     r.2.2 = [PHOTO_SAVED_REPLY]) ∧
    courierReply ⟨none, none, some longComment⟩ "ord-2" ⟨[], []⟩ =
      (⟨[], []⟩, [TEXT_REJECTED]) := by
  have h := claim_courier_photos_and_text_cap demoUpload demoCourierCtx demoCourierSt
    demoCourierDb 5 demoCourierSession "ord-1"
    (SvcReachable.create 5 demoCourierPatch SvcReachable.init)
    rfl (by decide) rfl (by decide) rfl (by decide) (by decide)
  exact ⟨h.1, h.2 ⟨none, none, some longComment⟩ "ord-2" ⟨[], []⟩ longComment rfl (by decide)⟩

/-- C10: `SessionManagerService.get` returns a shallow copy: the reference
it hands out is a fresh cell distinct from the stored one and holding an
equal record; the table and every existing cell are untouched by `get`;
any field mutation through the returned reference leaves the stored
session exactly as it was; and on an absent key `get` returns `undefined`
with the store unchanged. -/
theorem claim_get_returns_shallow_copy (m : RefMgr) (chatId addr : Nat) (v : AuthSession)
    (ht : m.table chatId = some addr)
    (hc : m.heap.cells addr = some v)
    (hwf : addr < m.heap.nextAddr) :
    (mgrGetRef chatId m).2 = some m.heap.nextAddr ∧
    m.heap.nextAddr ≠ addr ∧
    (mgrGetRef chatId m).1.heap.cells m.heap.nextAddr = some v ∧
    (mgrGetRef chatId m).1.table = m.table ∧
    (∀ x, x ≠ m.heap.nextAddr → (mgrGetRef chatId m).1.heap.cells x = m.heap.cells x) ∧
    (∀ f : AuthSession → AuthSession,
      (writeField m.heap.nextAddr f (mgrGetRef chatId m).1.heap).cells addr = some v) ∧
    (∀ (m₂ : RefMgr) (c₂ : Nat), m₂.table c₂ = none → mgrGetRef c₂ m₂ = (m₂, none)) := by
  have hne : m.heap.nextAddr ≠ addr := by omega
  have hne₂ : addr ≠ m.heap.nextAddr := by omega
  refine ⟨?_, hne, ?_, ?_, ?_, ?_, ?_⟩
  · simp [mgrGetRef, ht, hc]
  · simp [mgrGetRef, ht, hc]
  · simp [mgrGetRef, ht, hc]
  · intro x hx
    simp [mgrGetRef, ht, hc, hx]
  · intro f
    simp [mgrGetRef, ht, hc, writeField, hne₂, hc]
  · intro m₂ c₂ h₂
    simp [mgrGetRef, h₂]

/-- C10 witness: a concrete one-session store — mutating the object
returned by `get` (setting `attemptsCount := 99`) leaves the stored
session intact. -/
theorem claim_get_returns_shallow_copy_witness :
    (mgrGetRef 7 ⟨⟨fun a => if a = 0 then some freshCodeSession else none, 1⟩,
        fun k => if k = 7 then some 0 else none⟩).2 = some 1 ∧
    (writeField 1 (fun s => { s with attemptsCount := 99 })
        (mgrGetRef 7 ⟨⟨fun a => if a = 0 then some freshCodeSession else none, 1⟩,
          fun k => if k = 7 then some 0 else none⟩).1.heap).cells 0 =
      some freshCodeSession := by
  have h := claim_get_returns_shallow_copy
    ⟨⟨fun a => if a = 0 then some freshCodeSession else none, 1⟩,
      fun k => if k = 7 then some 0 else none⟩ 7 0 freshCodeSession rfl rfl (by decide)
  exact ⟨h.1, h.2.2.2.2.2.1 (fun s => { s with attemptsCount := 99 })⟩

end MaxProvider
